/-
  Verification of core subsystems of a MongoDB-3.6-derived server
  (locking, catalog, plan execution, storage-engine metadata) against
  their natural-language specification.

  The C++ sources are shallowly embedded: each Lean definition mirrors a
  function of the repository, with machine state passed explicitly and
  fallible paths returning Option/Except.  File/line references point to
  the repository sources.
-/
import Mathlib

namespace MLock

/-- Lock modes, mirroring `enum LockMode` from lock_manager_defs.h
(declared in lock_state.cpp's includes; values taken from the
compatibility-matrix comment in lock_state.cpp lines 351-363). -/
inductive LockMode where
  | MODE_NONE
  | MODE_IS
  | MODE_IX
  | MODE_S
  | MODE_X
deriving DecidableEq, Repr

open LockMode

/-- Resource types, mirroring `enum ResourceType` used throughout
lock_state.cpp (RESOURCE_GLOBAL, RESOURCE_MMAPV1_FLUSH, RESOURCE_DATABASE,
RESOURCE_COLLECTION, RESOURCE_METADATA, RESOURCE_MUTEX). -/
inductive ResourceType where
  | RESOURCE_INVALID
  | RESOURCE_GLOBAL
  | RESOURCE_MMAPV1_FLUSH
  | RESOURCE_DATABASE
  | RESOURCE_COLLECTION
  | RESOURCE_METADATA
  | RESOURCE_MUTEX
deriving DecidableEq, Repr

open ResourceType

/-- Numeric tag of a resource type, used for the ordering of ResourceIds
(the C++ ResourceId packs the type into the top bits of its hash, so
ResourceIds order first by type, then by hash). -/
def ResourceType.toNat : ResourceType → Nat
  | RESOURCE_INVALID => 0
  | RESOURCE_GLOBAL => 1
  | RESOURCE_MMAPV1_FLUSH => 2
  | RESOURCE_DATABASE => 3
  | RESOURCE_COLLECTION => 4
  | RESOURCE_METADATA => 5
  | RESOURCE_MUTEX => 6

/-- A lockable resource identifier: a type tag plus the hash of the
resource name (for the singleton resources the hash is the fixed
singleton id: PARALLEL_BATCH_WRITER_MODE = 1, GLOBAL = 2). -/
structure ResourceId where
  resType : ResourceType
  hashId : Nat
deriving DecidableEq, Repr

/-- `const ResourceId resourceIdGlobal` (lock_state.cpp line 189). -/
def resourceIdGlobal : ResourceId := ⟨RESOURCE_GLOBAL, 2⟩

/-- `const ResourceId resourceIdParallelBatchWriterMode`
(lock_state.cpp lines 1239-1240). -/
def resourceIdParallelBatchWriterMode : ResourceId := ⟨RESOURCE_GLOBAL, 1⟩

/-- Total order on ResourceIds: the C++ ResourceId compares by its full
hash, which is the type tag in the top bits followed by the name hash. -/
def ResourceId.le (a b : ResourceId) : Prop :=
  a.resType.toNat < b.resType.toNat ∨
    (a.resType.toNat = b.resType.toNat ∧ a.hashId ≤ b.hashId)

instance : DecidablePred (fun p : ResourceId × ResourceId => ResourceId.le p.1 p.2) :=
  fun _ => by unfold ResourceId.le; infer_instance

instance (a b : ResourceId) : Decidable (ResourceId.le a b) := by
  unfold ResourceId.le; infer_instance

/-- `isSharedLockMode` from lock_manager_defs.h: MODE_IS and MODE_S. -/
def isSharedLockMode : LockMode → Bool
  | MODE_IS => true
  | MODE_S => true
  | _ => false

/-- `shouldDelayUnlock` (lock_state.cpp lines 216-248).  Returns `none`
on the MONGO_UNREACHABLE branches (invalid resource type or MODE_NONE),
`some b` otherwise. -/
def shouldDelayUnlock (resId : ResourceId) (mode : LockMode) : Option Bool :=
  match resId.resType with
  | RESOURCE_GLOBAL => some false
  | RESOURCE_MMAPV1_FLUSH => some false
  | RESOURCE_MUTEX => some false
  | RESOURCE_COLLECTION | RESOURCE_DATABASE | RESOURCE_METADATA =>
    match mode with
    | MODE_X => some true
    | MODE_IX => some true
    | MODE_IS => some false
    | MODE_S => some false
    | MODE_NONE => none
  | RESOURCE_INVALID => none

/-- Client state of a locker (`Locker::ClientState`). -/
inductive ClientState where
  | kInactive
  | kActiveReader
  | kActiveWriter
  | kQueuedReader
  | kQueuedWriter
deriving DecidableEq, Repr

open ClientState

/-- One entry of the locker's `_requests` map: the requested mode and the
re-entrant acquisition count (`LockRequest::mode`,
`LockRequest::recursiveCount`). -/
structure LockRequestRec where
  mode : LockMode
  recursiveCount : Nat
deriving DecidableEq, Repr

/-- The per-operation locker state used by lock_state.cpp: the
`_requests` map (as an association list with distinct keys), the
write-unit-of-work nesting level, the deferred-unlock queue, the ticket
mode, and the client state. -/
structure LockerState where
  requests : List (ResourceId × LockRequestRec)
  wuowNestingLevel : Nat
  resourcesToUnlockAtEndOfUnitOfWork : List ResourceId
  modeForTicket : LockMode
  clientState : ClientState
deriving DecidableEq, Repr

/-- Lookup in the `_requests` map. -/
def findRequest (st : LockerState) (resId : ResourceId) : Option LockRequestRec :=
  (st.requests.find? (fun p => p.1 = resId)).map Prod.snd

/-- Modelled from the spec: `LockManager::unlock` (lock_manager.cpp is
not part of the selected sources) — "decrement recursiveCount; at zero,
remove from its LockHead and re-evaluate the conflict queue ...  Returns
true if the request was fully released."  Combined here with the locker
side `LockerImpl::_unlockImpl` (lock_state.cpp lines 1059-1080): on full
release of the global resource the ticket is returned and the client
state becomes inactive, and the request is removed from the map.
Returns `none` when the resource is not in the map (the C++ code would
dereference an invalid iterator). -/
def unlockImpl (st : LockerState) (resId : ResourceId) : Option (Bool × LockerState) :=
  match findRequest st resId with
  | none => none
  | some req =>
    if req.recursiveCount ≤ 1 then
      -- fully released: remove from the map; global also releases the ticket
      let st' := { st with requests := st.requests.filter (fun p => ¬ p.1 = resId) }
      let st'' :=
        if resId = resourceIdGlobal then
          { st' with modeForTicket := MODE_NONE, clientState := kInactive }
        else st'
      some (true, st'')
    else
      some (false,
        { st with requests := st.requests.map (fun p =>
            if p.1 = resId then (p.1, { p.2 with recursiveCount := p.2.recursiveCount - 1 })
            else p) })

/-- `LockerImpl::unlock` (lock_state.cpp lines 651-665): inside a write
unit of work, a resource for which `shouldDelayUnlock` holds is pushed on
the deferred queue and the call returns false; otherwise the release goes
through `_unlockImpl`. -/
def lockerUnlock (st : LockerState) (resId : ResourceId) : Option (Bool × LockerState) :=
  match findRequest st resId with
  | none => none
  | some req =>
    if st.wuowNestingLevel > 0 then
      match shouldDelayUnlock resId req.mode with
      | none => none
      | some true =>
        some (false, { st with resourcesToUnlockAtEndOfUnitOfWork :=
          st.resourcesToUnlockAtEndOfUnitOfWork ++ [resId] })
      | some false => unlockImpl st resId
    else
      unlockImpl st resId

/-- `LockerImpl::beginWriteUnitOfWork` (lock_state.cpp lines 577-583). -/
def beginWriteUnitOfWork (st : LockerState) : LockerState :=
  { st with wuowNestingLevel := st.wuowNestingLevel + 1 }

/-- Helper for `endWriteUnitOfWork`: unlock every queued resource in
order.  At this point the nesting level is zero, so `lockerUnlock` never
defers again, which makes the queue-draining loop of the C++ code
equivalent to this fold over the saved queue. -/
def drainUnlockQueue : List ResourceId → LockerState → Option LockerState
  | [], st => some st
  | r :: rs, st =>
    match lockerUnlock st r with
    | none => none
    | some (_, st') => drainUnlockQueue rs st'

/-- `LockerImpl::endWriteUnitOfWork` (lock_state.cpp lines 588-606).
`none` models the `invariant(_wuowNestingLevel > 0)` failure.  Leaving a
nested (non-outermost) unit of work only decrements the nesting level;
leaving the outermost one unlocks everything on the deferred queue. -/
def endWriteUnitOfWork (st : LockerState) : Option LockerState :=
  if st.wuowNestingLevel = 0 then none
  else if st.wuowNestingLevel > 1 then
    some { st with wuowNestingLevel := st.wuowNestingLevel - 1 }
  else
    drainUnlockQueue st.resourcesToUnlockAtEndOfUnitOfWork
      { st with wuowNestingLevel := 0, resourcesToUnlockAtEndOfUnitOfWork := [] }

/-- `enum LockResult` from lock_manager_defs.h, as used in
lock_state.cpp. -/
inductive LockResult where
  | LOCK_OK
  | LOCK_WAITING
  | LOCK_TIMEOUT
  | LOCK_DEADLOCK
  | LOCK_INVALID
deriving DecidableEq, Repr

open LockResult

/-- `const Milliseconds DeadlockTimeout = Milliseconds(500)`
(lock_state.cpp line 199): the deadlock-detection interval. -/
def DeadlockTimeoutMs : Nat := 500

/-- One wakeup of the condition-variable wait inside
`LockerImpl::lockComplete`: the result delivered by
`CondVarLockGrantNotification::wait` (LOCK_TIMEOUT if the timer expired
before a notify) and the real time the sleep consumed, in microseconds. -/
structure WakeEvent where
  notifyResult : LockResult
  elapsedMicros : Nat
deriving DecidableEq, Repr

/-- The waiting loop of `LockerImpl::lockComplete` (lock_state.cpp lines
990-1035), instantiated for the non-MMAPV1 locker (yieldFlushLock is
false).  `timeoutMs = none` models `Milliseconds::max()`.  `hasCycle` is
the outcome of the wait-for-graph deadlock detector (`DeadlockDetector`
lives in lock_manager.cpp, outside the selected sources; modelled from
the spec as a fixed answer for this waiter).  The list of events supplies
the successive condvar wakeups; `none` means the loop is still waiting
when the supplied events run out.  Returns the final LockResult together
with the list of wait intervals (ms) that were passed to `_notify.wait`. -/
def lockCompleteLoop (checkDeadlock hasCycle : Bool) (timeoutMs : Option Nat) :
    List WakeEvent → Nat → Nat → List Nat → Option (LockResult × List Nat)
  | [], _, _, _ => none
  | ev :: evs, waitTime, elapsedMicros, waits =>
    let waits' := waits ++ [waitTime]
    let elapsed' := elapsedMicros + ev.elapsedMicros
    if ev.notifyResult = LOCK_OK then some (LOCK_OK, waits')
    else if checkDeadlock && hasCycle then some (LOCK_DEADLOCK, waits')
    else
      match timeoutMs with
      | none => lockCompleteLoop checkDeadlock hasCycle none evs waitTime elapsed' waits'
      | some t =>
        let totalBlockMs := elapsed' / 1000
        let waitTime' := if totalBlockMs < t then min (t - totalBlockMs) DeadlockTimeoutMs else 0
        if waitTime' = 0 then some (ev.notifyResult, waits')
        else lockCompleteLoop checkDeadlock hasCycle (some t) evs waitTime' elapsed' waits'

/-- `LockerImpl::lockComplete` (lock_state.cpp lines 966-1053) for the
non-MMAPV1 locker: run the waiting loop starting from
`min(timeout, DeadlockTimeout)`, and on any result other than LOCK_OK
detach the queued request through `_unlockImpl` before returning. -/
def lockComplete (st : LockerState) (resId : ResourceId) (timeoutMs : Option Nat)
    (checkDeadlock hasCycle : Bool) (events : List WakeEvent) :
    Option (LockResult × List Nat × LockerState) :=
  match lockCompleteLoop checkDeadlock hasCycle timeoutMs events
      (match timeoutMs with
       | none => DeadlockTimeoutMs
       | some t => min t DeadlockTimeoutMs) 0 [] with
  | none => none
  | some (result, waits) =>
    if result = LOCK_OK then some (result, waits, st)
    else
      match unlockImpl st resId with
      | none => none
      | some (_, st') => some (result, waits, st')

/-- The two global-throttling ticket pools (`TicketHolder* ticketHolders`,
lock_state.cpp line 344). -/
inductive TicketPool where
  | reader
  | writer
deriving DecidableEq, Repr

/-- `Locker::setGlobalThrottling` (lock_state.cpp lines 370-376): the
reader pool serves MODE_S and MODE_IS, the writer pool serves MODE_IX;
every other slot (in particular MODE_X) stays null. -/
def ticketHolderFor : LockMode → Option TicketPool
  | MODE_S => some TicketPool.reader
  | MODE_IS => some TicketPool.reader
  | MODE_IX => some TicketPool.writer
  | _ => none

/-- Modelled from the spec: `LockManager::lock` / `convert` as visible in
the locker's request map (lock_manager.cpp is not in the selected
sources): "created on first acquire for a (locker,resource) pair;
recursiveCount increments on repeat acquires". -/
def acquireRequest (st : LockerState) (resId : ResourceId) (mode : LockMode) : LockerState :=
  match findRequest st resId with
  | none => { st with requests := st.requests ++ [(resId, ⟨mode, 1⟩)] }
  | some _ =>
    { st with requests := st.requests.map (fun p =>
        if p.1 = resId then (p.1, ⟨mode, p.2.recursiveCount + 1⟩) else p) }

/-- Observable outcome of `LockerImpl::_lockGlobalBegin`: the returned
LockResult, the locker state afterwards, the client state that was
published while waiting for a ticket (if a pool was consulted), the pool
that was consulted, and whether the lock manager (`lockBegin`) was ever
invoked. -/
structure GlobalBeginOutcome where
  result : LockResult
  st : LockerState
  queuedState : Option ClientState
  poolUsed : Option TicketPool
  invokedLockManager : Bool
deriving DecidableEq, Repr

/-- `LockerImpl::_lockGlobalBegin` (lock_state.cpp lines 455-502).
`timeoutIsMax` distinguishes `Milliseconds::max()` (waitForTicket, which
blocks until a ticket arrives) from a finite timeout; `ticketAcquired`
says whether `waitForTicketUntil` obtained a ticket within the finite
timeout; `managerResult` is what `lockBegin` returns when reached (the
code checks it is LOCK_OK or LOCK_WAITING). -/
def lockGlobalBegin (st : LockerState) (mode : LockMode) (timeoutIsMax : Bool)
    (ticketAcquired : Bool) (managerResult : LockResult) : GlobalBeginOutcome :=
  if st.modeForTicket = MODE_NONE then
    let reader := isSharedLockMode mode
    let queued := if reader then kQueuedReader else kQueuedWriter
    let active := if reader then kActiveReader else kActiveWriter
    match ticketHolderFor mode with
    | some pool =>
      if timeoutIsMax || ticketAcquired then
        let st1 := { st with clientState := active, modeForTicket := mode }
        { result := managerResult, st := acquireRequest st1 resourceIdGlobal mode,
          queuedState := some queued, poolUsed := some pool, invokedLockManager := true }
      else
        { result := LOCK_TIMEOUT, st := { st with clientState := kInactive },
          queuedState := some queued, poolUsed := some pool, invokedLockManager := false }
    | none =>
      let st1 := { st with clientState := active, modeForTicket := mode }
      { result := managerResult, st := acquireRequest st1 resourceIdGlobal mode,
        queuedState := none, poolUsed := none, invokedLockManager := true }
  else
    { result := managerResult, st := acquireRequest st resourceIdGlobal mode,
      queuedState := none, poolUsed := none, invokedLockManager := true }

/-- Uncontended `LockerImpl::lockGlobal` as used by `restoreLockState`
(the restore path asserts LOCK_OK): infinite timeout, ticket granted,
lock manager grants immediately. -/
def lockGlobalModel (st : LockerState) (mode : LockMode) : LockerState :=
  (lockGlobalBegin st mode true true LOCK_OK).st

/-- `Locker::OneLock`: one saved (resource, mode) pair. -/
structure OneLock where
  resourceId : ResourceId
  mode : LockMode
deriving DecidableEq, Repr

/-- `OneLock::operator<`: ordering by ResourceId, used by the
`std::sort` calls in lock_state.cpp. -/
def OneLock.le (a b : OneLock) : Prop := ResourceId.le a.resourceId b.resourceId

instance (a b : OneLock) : Decidable (OneLock.le a b) := by
  unfold OneLock.le; infer_instance

/-- `Locker::LockSnapshot`: the global mode plus the saved non-global
locks. -/
structure LockSnapshot where
  globalMode : LockMode
  locks : List OneLock
deriving DecidableEq, Repr

/-- The per-entry invariant of the save loop (lock_state.cpp lines
826-828), for the non-MMAPV1 locker: only database, collection, or
global-typed (shared mode) resources may be saved. -/
def validSaveEntry (r : ResourceId) (req : LockRequestRec) : Bool :=
  r.resType = RESOURCE_DATABASE ∨ r.resType = RESOURCE_COLLECTION ∨
    (r.resType = RESOURCE_GLOBAL ∧ isSharedLockMode req.mode)

/-- The non-global loop of `saveLockStateAndUnlock` (lock_state.cpp lines
819-838): walk the remaining requests, skip mutexes, record and unlock
everything else.  `none` models a failed invariant (a non-saveable
resource type, or an unlock that does not fully release). -/
def saveLoop : List (ResourceId × LockRequestRec) → LockerState → List OneLock →
    Option (List OneLock × LockerState)
  | [], st, acc => some (acc, st)
  | (r, req) :: rest, st, acc =>
    if r.resType = RESOURCE_MUTEX then saveLoop rest st acc
    else if validSaveEntry r req then
      match lockerUnlock st r with
      | some (true, st') => saveLoop rest st' (acc ++ [⟨r, req.mode⟩])
      | _ => none
    else none

/-- `LockerImpl::saveLockStateAndUnlock` (lock_state.cpp lines 788-845)
for the non-MMAPV1 locker.  Returns the boolean result, the produced
snapshot, and the locker state afterwards; `none` models invariant
failures. -/
def saveLockStateAndUnlock (st : LockerState) : Option (Bool × LockSnapshot × LockerState) :=
  if st.wuowNestingLevel ≠ 0 then none
  else
    match findRequest st resourceIdGlobal with
    | none =>
      if st.requests.all (fun p => p.1.resType = RESOURCE_MUTEX) then
        some (false, ⟨MODE_NONE, []⟩, st)
      else none
    | some g =>
      if 1 < g.recursiveCount then some (false, ⟨MODE_NONE, []⟩, st)
      else
        match lockerUnlock st resourceIdGlobal with
        | some (true, st1) =>
          match saveLoop st1.requests st1 [] with
          | some (acc, st2) =>
            some (true, ⟨g.mode, acc.insertionSort OneLock.le⟩, st2)
          | none => none
        | _ => none

/-- `LockerImpl::restoreLockState` (lock_state.cpp lines 850-873) for
the non-MMAPV1 locker, with every reacquisition granted (the code asserts
LOCK_OK on each).  Returns the locker state afterwards and the trace of
(resource, mode) acquisitions in the order they were performed:
Parallel-Batch-Writer-Mode first when it heads the snapshot, then the
global lock, then the remaining saved locks in snapshot order. -/
def restoreLockState (st : LockerState) (snap : LockSnapshot) :
    Option (LockerState × List OneLock) :=
  if st.wuowNestingLevel ≠ 0 then none
  else if st.modeForTicket ≠ MODE_NONE then none
  else
    match snap.locks with
    | l :: ls =>
      if l.resourceId = resourceIdParallelBatchWriterMode then
        -- PBWM heads the snapshot: lock it first, then the global lock,
        -- then the remaining saved locks in snapshot order
        some ((ls.foldl (fun s l' => acquireRequest s l'.resourceId l'.mode)
            (lockGlobalModel (acquireRequest st l.resourceId l.mode) snap.globalMode)),
          l :: ⟨resourceIdGlobal, snap.globalMode⟩ :: ls)
      else
        some (((l :: ls).foldl (fun s l' => acquireRequest s l'.resourceId l'.mode)
            (lockGlobalModel st snap.globalMode)),
          ⟨resourceIdGlobal, snap.globalMode⟩ :: l :: ls)
    | [] => some (lockGlobalModel st snap.globalMode, [⟨resourceIdGlobal, snap.globalMode⟩])

/-- The (resource, mode) pairs that `saveLockStateAndUnlock` records in
the snapshot's lock list: every held request except the global lock
(stored separately as the global mode) and the mutex-typed resources
(which are skipped by the save loop). -/
def savedPairs (st : LockerState) : List OneLock :=
  (st.requests.filter (fun p =>
    ¬ p.1 = resourceIdGlobal ∧ ¬ p.1.resType = RESOURCE_MUTEX)).map
    (fun p => ⟨p.1, p.2.mode⟩)

/-- The request-map entry created by reacquiring a saved lock. -/
def toReqPair (l : OneLock) : ResourceId × LockRequestRec :=
  (l.resourceId, ⟨l.mode, 1⟩)

instance : IsTotal OneLock OneLock.le where
  total := by
    intro a b
    unfold OneLock.le ResourceId.le
    rcases Nat.lt_trichotomy a.resourceId.resType.toNat b.resourceId.resType.toNat with
      h | h | h
    · exact Or.inl (Or.inl h)
    · rcases Nat.le_total a.resourceId.hashId b.resourceId.hashId with h2 | h2
      · exact Or.inl (Or.inr ⟨h, h2⟩)
      · exact Or.inr (Or.inr ⟨h.symm, h2⟩)
    · exact Or.inr (Or.inl h)

instance : IsTrans OneLock OneLock.le where
  trans := by
    intro a b c hab hbc
    unfold OneLock.le ResourceId.le at *
    rcases hab with h1 | ⟨h1, h1'⟩ <;> rcases hbc with h2 | ⟨h2, h2'⟩
    · exact Or.inl (h1.trans h2)
    · exact Or.inl (h2 ▸ h1)
    · exact Or.inl (h1 ▸ h2)
    · exact Or.inr ⟨h1.trans h2, h1'.trans h2'⟩

end MLock

/-- Error codes used by the catalog and storage-metadata paths
(mongo/base/error_codes; the subset appearing in database_impl.cpp and
storage_engine_metadata.cpp). -/
inductive ErrCode where
  | OK
  | IllegalOperation
  | BadValue
  | NamespaceExists
  | FailedToParse
  | NonExistentPath
  | FileNotOpen
deriving DecidableEq, Repr

namespace MCatalog

open ErrCode

/-- The properties of a namespace consulted by
`DatabaseImpl::dropCollection` (database_impl.cpp lines 496-509):
whether it is a system namespace, whether it is system.profile, and
whether it is one of the system collections that may be dropped
(system.views, healthlog, system.sessions, system.keys). -/
structure NsProps where
  isSystem : Bool
  isSystemDotProfile : Bool
  isDroppableSystemNs : Bool
deriving DecidableEq, Repr

/-- Observable actions performed by the collection-drop path of
database_impl.cpp, in program order. -/
inductive DropEffect where
  /-- `IndexCatalog::dropIndex` on an over-long index, phase one
  (line 627). -/
  | dropIndexImmediately (indexName : String)
  /-- `OpObserver::onDropIndex` oplog entry (lines 629-630). -/
  | onDropIndexOplog (indexName : String)
  /-- `OpObserver::onDropCollection` oplog entry. -/
  | onDropCollectionOplog
  /-- `_finishDropCollection`: indexes and storage entry dropped now. -/
  | finishDropCollection
  /-- `renameCollection` to the drop-pending namespace derived from the
  given drop optime (lines 663-670). -/
  | renameToDropPending (dropOpTime : Nat)
  /-- `DropPendingCollectionReaper::addDropPendingNamespace`
  (line 674). -/
  | registerWithReaper (dropOpTime : Nat)
deriving DecidableEq, Repr

/-- Inputs of `DatabaseImpl::dropCollectionEvenIfSystem` that the
function branches on.  `indexTooLongAfterRename` is modelled from the
spec ("Indexes whose post-rename namespace would exceed length limits
are dropped immediately in phase one"): it stands for
`makeDropPendingNamespace(OpTime::max()).checkLengthForRename(name.size())`
failing, `NamespaceString` being outside the selected sources. -/
structure DropCollEnv where
  writesAreReplicated : Bool
  collectionExists : Bool
  numIndexBuildsInProgress : Nat
  isOplogDisabledForNamespace : Bool
  isMasterSlave : Bool
  indexNames : List String
  indexTooLongAfterRename : String → Bool
  /-- optime returned by `OpObserver::onDropCollection` when the drop is
  logged (`none` = null OpTime, i.e. nothing was written to the oplog). -/
  observerDropOpTime : Option Nat

/-- `DatabaseImpl::dropCollectionEvenIfSystem` (database_impl.cpp lines
518-677).  `dropOpTime = none` models a null optime.  Returns the status
and the list of performed effects; `none` models an `fassert`/`massert`
abort (index builds in progress, or an unexpected oplog write while
applying a secondary's drop). -/
def dropCollectionEvenIfSystem (env : DropCollEnv) (dropOpTime : Option Nat) :
    Option (ErrCode × List DropEffect) :=
  if dropOpTime.isSome ∧ env.writesAreReplicated then some (BadValue, [])
  else if ¬ env.collectionExists then some (OK, [])
  else if env.numIndexBuildsInProgress ≠ 0 then none
  else if (dropOpTime.isNone ∧ env.isOplogDisabledForNamespace) ∨ env.isMasterSlave then
    some (OK, [DropEffect.finishDropCollection, DropEffect.onDropCollectionOplog])
  else
    match dropOpTime with
    | none =>
      let indexesToDrop := env.indexNames.filter env.indexTooLongAfterRename
      let phase1 := indexesToDrop.flatMap (fun n =>
        [DropEffect.dropIndexImmediately n, DropEffect.onDropIndexOplog n])
      match env.observerDropOpTime with
      | none =>
        some (OK, phase1 ++ [DropEffect.onDropCollectionOplog, DropEffect.finishDropCollection])
      | some t =>
        some (OK, phase1 ++ [DropEffect.onDropCollectionOplog,
          DropEffect.renameToDropPending t, DropEffect.registerWithReaper t])
    | some t =>
      -- applying an oplog entry on a secondary: onDropCollection must
      -- return a null optime, otherwise fassert 40468
      if env.observerDropOpTime.isSome then none
      else
        some (OK, [DropEffect.onDropCollectionOplog,
          DropEffect.renameToDropPending t, DropEffect.registerWithReaper t])

/-- `DatabaseImpl::dropCollection` (database_impl.cpp lines 482-513):
the absent-collection early return, the system-collection and profiling
validations, then delegation to `dropCollectionEvenIfSystem`. -/
def dropCollection (env : DropCollEnv) (ns : NsProps) (profileLevel : Nat)
    (dropOpTime : Option Nat) : Option (ErrCode × List DropEffect) :=
  if ¬ env.collectionExists then some (OK, [])
  else if ns.isSystem ∧ ns.isSystemDotProfile ∧ profileLevel ≠ 0 then
    some (IllegalOperation, [])
  else if ns.isSystem ∧ ¬ ns.isSystemDotProfile ∧ ¬ ns.isDroppableSystemNs then
    some (IllegalOperation, [])
  else dropCollectionEvenIfSystem env dropOpTime

/-- The 62-character alphanumeric alphabet `charsToChooseFrom`
(database_impl.cpp lines 1047-1050). -/
def charsToChooseFrom : List Char :=
  "0123456789ABCDEFGHIJKLMNOPQRSTUVWXYZabcdefghijklmnopqrstuvwxyz".toList

/-- The `replacePercentSign` transform of
`DatabaseImpl::makeUniqueCollectionNamespace` (lines 1053-1059) applied
to a whole model string: every '%' is replaced by
`charsToChooseFrom[random % 62]`, consuming one pseudo-random draw per
percent sign; other characters pass through.  `k` is the index of the
next unconsumed draw from the pseudo-random stream; the new index is
returned. -/
def replacePercent (randoms : Nat → Nat) : Nat → List Char → List Char × Nat
  | k, [] => ([], k)
  | k, c :: cs =>
    if c = '%' then
      let c' := charsToChooseFrom.getD (randoms k % charsToChooseFrom.length) 'a'
      let r := replacePercent randoms (k + 1) cs
      (c' :: r.1, r.2)
    else
      let r := replacePercent randoms k cs
      (c :: r.1, r.2)

/-- The generation loop of `makeUniqueCollectionNamespace` (lines
1062-1073): up to `n` attempts, each producing a candidate namespace
`<db>.<substituted model>` and returning the first one for which no
collection exists. -/
def genLoop (existsColl : String → Bool) (dbName : String) (model : List Char)
    (randoms : Nat → Nat) : Nat → Nat → Option String
  | 0, _ => none
  | n + 1, k =>
    let r := replacePercent randoms k model
    let nss := dbName ++ "." ++ String.mk r.1
    if existsColl nss then genLoop existsColl dbName model randoms n r.2
    else some nss

/-- `DatabaseImpl::makeUniqueCollectionNamespace` (database_impl.cpp
lines 1021-1082).  `maxNsCollectionLen` stands for
`NamespaceString::MaxNsCollectionLen` (namespace_string.h is outside the
selected sources); the model is truncated to
`maxNsCollectionLen - (dbName.length + 1)` characters.  `randoms` is the
stream of draws of the seeded `PseudoRandom` source; `existsColl` is the
`getCollection` lookup. -/
def makeUniqueCollectionNamespace (maxNsCollectionLen : Nat) (dbName : String)
    (collectionNameModel : String) (randoms : Nat → Nat)
    (existsColl : String → Bool) : Except ErrCode String :=
  let maxModelLength := maxNsCollectionLen - (dbName.length + 1)
  let model := collectionNameModel.toList.take maxModelLength
  let numPercentSign := model.count '%'
  if numPercentSign = 0 then .error FailedToParse
  else
    let numGenerationAttempts := numPercentSign * charsToChooseFrom.length * 100
    match genLoop existsColl dbName model randoms numGenerationAttempts 0 with
    | some nss => .ok nss
    | none => .error NamespaceExists

end MCatalog

namespace MPlan

/-- Stage types relevant to `PlanExecutor::pickBestPlan`
(plan_executor.cpp lines 253-290); every other stage kind is
`STAGE_OTHER`. -/
inductive StageType where
  | STAGE_SUBPLAN
  | STAGE_MULTI_PLAN
  | STAGE_CACHED_PLAN
  | STAGE_OTHER (kind : Nat)
deriving DecidableEq, Repr

/-- A plan-stage tree: a stage type plus the child vector
(`PlanStage::getChildren`). -/
inductive PlanStage where
  | mk (ty : StageType) (children : List PlanStage)

/-- `PlanStage::stageType`. -/
def PlanStage.stageType : PlanStage → StageType
  | .mk t _ => t

/-- `PlanStage::getChildren`. -/
def PlanStage.children : PlanStage → List PlanStage
  | .mk _ c => c

mutual
/-- `getStageByType` (plan_executor.cpp lines 109-123): the first stage
of the given type found by the recursive root-first, left-to-right
search, or `none`. -/
def getStageByType : PlanStage → StageType → Option PlanStage
  | .mk t cs, ty =>
    if t = ty then some (.mk t cs)
    else getStageByTypeList cs ty

/-- The child loop of `getStageByType` (lines 114-120). -/
def getStageByTypeList : List PlanStage → StageType → Option PlanStage
  | [], _ => none
  | c :: cs, ty =>
    match getStageByType c ty with
    | some r => some r
    | none => getStageByTypeList cs ty
end

mutual
/-- Preorder (root first, children left to right) listing of a stage
tree: the order in which `getStageByType` visits stages. -/
def preorder : PlanStage → List PlanStage
  | .mk t cs => .mk t cs :: preorderList cs

/-- Preorder listing of a forest. -/
def preorderList : List PlanStage → List PlanStage
  | [] => []
  | c :: cs => preorder c ++ preorderList cs
end

/-- What `PlanExecutor::pickBestPlan` does: dispatch plan selection to a
found stage of one kind, or return OK without dispatching. -/
inductive PickDispatch where
  | subplan (s : PlanStage)
  | multiPlan (s : PlanStage)
  | cachedPlan (s : PlanStage)
  | okNoDispatch

/-- `PlanExecutor::pickBestPlan` (plan_executor.cpp lines 253-290):
look for a Subplan stage, else a MultiPlan stage, else a CachedPlan
stage, dispatching `pickBestPlan` of the found stage; OK when none is
present. -/
def pickBestPlan (root : PlanStage) : PickDispatch :=
  match getStageByType root StageType.STAGE_SUBPLAN with
  | some s => .subplan s
  | none =>
    match getStageByType root StageType.STAGE_MULTI_PLAN with
    | some s => .multiPlan s
    | none =>
      match getStageByType root StageType.STAGE_CACHED_PLAN with
      | some s => .cachedPlan s
      | none => .okNoDispatch

end MPlan

namespace Bson

/-- A minimal BSON value model: the types the verified code paths
inspect (numbers, strings, booleans, subdocuments). -/
inductive BVal where
  | bInt (i : Int)
  | bStr (s : String)
  | bBool (b : Bool)
  | bDoc (fields : List (String × BVal))

open BVal

/-- `BSONObj::getField` / `operator[]`: the first element with the given
field name, or `none` for EOO. -/
def getField (fields : List (String × BVal)) (name : String) : Option BVal :=
  (fields.find? (fun p => p.1 = name)).map Prod.snd

/-- `BSONObj::getObjectField`: the named subdocument's fields, or the
empty document when the field is missing or not a document. -/
def getObjectField (fields : List (String × BVal)) (name : String) : List (String × BVal) :=
  match getField fields name with
  | some (bDoc l) => l
  | _ => []

/-- `BSONObj::getStringField`: the named string, or "" when missing or
not a string. -/
def getStringField (fields : List (String × BVal)) (name : String) : String :=
  match getField fields name with
  | some (bStr s) => s
  | _ => ""

/-- `BSONElement::numberInt`: the numeric value for number types, 0 for
everything else. -/
def numberInt : BVal → Int
  | bInt i => i
  | _ => 0

/-- `BSONElement::trueValue` on an optional element (EOO => false):
booleans give their value, numbers compare against zero, strings and
documents are true. -/
def trueValue : Option BVal → Bool
  | none => false
  | some (bBool b) => b
  | some (bInt i) => i ≠ 0
  | some (bStr _) => true
  | some (bDoc _) => true

end Bson

namespace MIndex

open Bson Bson.BVal

/-- `IndexDescriptor::isIdIndexPattern` (index_descriptor.h lines
260-269): the first element must be `_id` with integer value 1 or -1 and
must be the only element. -/
def isIdIndexPattern (pattern : List (String × BVal)) : Bool :=
  match pattern with
  | [] => false
  | (f, v) :: rest =>
    f = "_id" && (numberInt v = 1 || numberInt v = -1) && rest.isEmpty

/-- `IndexDescriptor::makeIndexNamespace` (index_descriptor.h lines
271-273). -/
def makeIndexNamespace (ns name : String) : String :=
  ns ++ ".$" ++ name

/-- The fields of an `IndexDescriptor` the claims are about (cached from
`_infoObj` by the constructor). -/
structure IndexDescriptor where
  keyPattern : List (String × BVal)
  indexName : String
  parentNS : String
  indexNamespace : String
  isIdIndex : Bool
  unique : Bool

/-- The `IndexDescriptor` constructor (index_descriptor.h lines 97-117):
key pattern, name and parent namespace are read from the info object;
`_isIdIndex = isIdIndexPattern(_keyPattern)`;
`_unique = _isIdIndex || infoObj[kUniqueFieldName].trueValue()`;
`_indexNamespace = makeIndexNamespace(_parentNS, _indexName)`. -/
def mkIndexDescriptor (infoObj : List (String × BVal)) : IndexDescriptor :=
  let keyPattern := getObjectField infoObj "key"
  let indexName := getStringField infoObj "name"
  let parentNS := getStringField infoObj "ns"
  let isIdIndex := isIdIndexPattern keyPattern
  { keyPattern := keyPattern
    indexName := indexName
    parentNS := parentNS
    indexNamespace := makeIndexNamespace parentNS indexName
    isIdIndex := isIdIndex
    unique := isIdIndex || trueValue (getField infoObj "unique") }

end MIndex

namespace MMeta

open Bson Bson.BVal ErrCode

/-- A file system fragment: paths mapped to the (parsed) BSON document
stored at the path; `none` = no such file. -/
def FileSys : Type := String → Option BVal

/-- `kMetadataBasename` resolution: `<dbpath>/storage.bson`
(storage_engine_metadata.cpp line 64 and the path joins in read/write). -/
def metadataPath (dbpath : String) : String := dbpath ++ "/storage.bson"

/-- The temporary file `<dbpath>/storage.bson.tmp` used by `write`
(lines 242-243). -/
def metadataTempPath (dbpath : String) : String := dbpath ++ "/storage.bson.tmp"

/-- Store a file. -/
def setFile (fs : FileSys) (p : String) (v : BVal) : FileSys :=
  fun q => if q = p then some v else fs q

/-- Remove a file. -/
def removeFile (fs : FileSys) (p : String) : FileSys :=
  fun q => if q = p then none else fs q

/-- `StorageEngineMetadata::write` (storage_engine_metadata.cpp lines
236-289): refuse an empty engine name with BadValue; otherwise write
`{storage: {engine: <name>, options: <options>}}` to the temporary file,
fsync it, and rename it over the metadata file. -/
def write (fs : FileSys) (dbpath : String) (storageEngine : String)
    (storageEngineOptions : List (String × BVal)) : ErrCode × FileSys :=
  if storageEngine = "" then (BadValue, fs)
  else
    let obj := bDoc [("storage",
      bDoc [("engine", bStr storageEngine), ("options", bDoc storageEngineOptions)])]
    let fs1 := setFile fs (metadataTempPath dbpath) obj
    -- boost::filesystem::rename: the temp file replaces the target
    let fs2 := setFile (removeFile fs1 (metadataTempPath dbpath)) (metadataPath dbpath) obj
    (OK, fs2)

/-- `dps::extractElementAtPath` for the two dotted paths `read` uses:
descend through the named subdocuments. -/
def extractAtPath : BVal → List String → Option BVal
  | v, [] => some v
  | bDoc fields, name :: rest =>
    match getField fields name with
    | some v => extractAtPath v rest
    | none => none
  | _, _ :: _ => none

/-- `StorageEngineMetadata::read` (storage_engine_metadata.cpp lines
149-234), at the level of parsed documents: the metadata file must
exist; `storage.engine` must be a non-empty string; `storage.options`,
when present, must be a document (otherwise FailedToParse); returns the
engine name and options. -/
def read (fs : FileSys) (dbpath : String) :
    Except ErrCode (String × List (String × BVal)) :=
  match fs (metadataPath dbpath) with
  | none => .error NonExistentPath
  | some obj =>
    match extractAtPath obj ["storage", "engine"] with
    | some (bStr s) =>
      if s = "" then .error FailedToParse
      else
        match extractAtPath obj ["storage", "options"] with
        | none => .ok (s, [])
        | some (bDoc l) => .ok (s, l)
        | some _ => .error FailedToParse
    | _ => .error FailedToParse

end MMeta

namespace MLock

open LockMode ResourceType ClientState

/-- Concrete state for the C1 witness: a database resource held in
MODE_IX, one level inside a write unit of work, already on the deferred
queue. -/
def C1rW : ResourceId := ⟨RESOURCE_DATABASE, 3⟩

/-- The C1 witness locker state. -/
def C1stW : LockerState :=
  { requests := [(C1rW, ⟨MODE_IX, 1⟩)], wuowNestingLevel := 1,
    resourcesToUnlockAtEndOfUnitOfWork := [C1rW], modeForTicket := MODE_NONE,
    clientState := kInactive }

/-- Concrete state for the C2 witness: a database lock request with
count 1 that is waiting. -/
def C2stW : LockerState :=
  { requests := [(⟨RESOURCE_DATABASE, 5⟩, ⟨MODE_S, 1⟩)], wuowNestingLevel := 0,
    resourcesToUnlockAtEndOfUnitOfWork := [], modeForTicket := MODE_NONE,
    clientState := kInactive }

/-- The C3 witness locker state: the global lock in MODE_IX plus one
database lock in MODE_IX, all held once, outside any write unit of
work. -/
def C3stW : LockerState :=
  { requests := [(resourceIdGlobal, ⟨MODE_IX, 1⟩),
      (⟨RESOURCE_DATABASE, 5⟩, ⟨MODE_IX, 1⟩)],
    wuowNestingLevel := 0, resourcesToUnlockAtEndOfUnitOfWork := [],
    modeForTicket := MODE_IX, clientState := kActiveWriter }

/-- The C4 witness locker state: an inactive locker holding no
ticket. -/
def C4stW : LockerState :=
  { requests := [], wuowNestingLevel := 0, resourcesToUnlockAtEndOfUnitOfWork := [],
    modeForTicket := MODE_NONE, clientState := kInactive }

end MLock

namespace MCatalog

/-- The C5 witness drop environment: a replicated collection with two
indexes, one of which becomes too long after the drop-pending rename. -/
def C5envW : DropCollEnv :=
  { writesAreReplicated := true, collectionExists := true,
    numIndexBuildsInProgress := 0, isOplogDisabledForNamespace := false,
    isMasterSlave := false, indexNames := ["short", "verylongindexname"],
    indexTooLongAfterRename := fun n => 10 < n.length,
    observerDropOpTime := some 42 }

/-- The C10 witness environment: an absent collection. -/
def C10envW : DropCollEnv :=
  { writesAreReplicated := true, collectionExists := false,
    numIndexBuildsInProgress := 0, isOplogDisabledForNamespace := false,
    isMasterSlave := false, indexNames := [],
    indexTooLongAfterRename := fun _ => false, observerDropOpTime := none }

end MCatalog

namespace MIndex

open Bson Bson.BVal

/-- The info object of a concrete descriptor on collection "a.b" with
index name "c" and the id key pattern. -/
def C8info : List (String × BVal) :=
  [("key", bDoc [("_id", bInt 1)]), ("name", bStr "c"), ("ns", bStr "a.b")]

end MIndex

/-
  Theorems.
-/

namespace MLock

open LockMode ResourceType ClientState LockResult

theorem find?_filter_key {β : Type} (l : List (ResourceId × β)) (f : ResourceId × β → Bool)
    (r' : ResourceId) (hkeep : ∀ p : ResourceId × β, p.1 = r' → f p = true) :
    (l.filter f).find? (fun p => p.1 = r') = l.find? (fun p => p.1 = r') := by
  induction l with
  | nil => rfl
  | cons a as ih =>
    rw [List.filter_cons]
    cases hf : f a with
    | true =>
      rw [if_pos rfl, List.find?_cons, List.find?_cons]
      cases ha : decide (a.1 = r') with
      | true => rfl
      | false => exact ih
    | false =>
      rw [if_neg Bool.false_ne_true, List.find?_cons]
      have ha : decide (a.1 = r') = false := by
        rw [decide_eq_false_iff_not]
        intro e
        rw [hkeep a e] at hf
        exact Bool.true_eq_false.mp hf
      rw [ha]
      exact ih

theorem find?_filter_drop {β : Type} (l : List (ResourceId × β)) (f : ResourceId × β → Bool)
    (r' : ResourceId) (hdrop : ∀ p : ResourceId × β, p.1 = r' → f p = false) :
    (l.filter f).find? (fun p => p.1 = r') = none := by
  rw [List.find?_eq_none]
  intro p hp
  rw [List.mem_filter] at hp
  rw [decide_eq_true_eq]
  intro e
  rw [hdrop p e] at hp
  exact Bool.false_ne_true hp.2

theorem find?_filter_ne (l : List (ResourceId × LockRequestRec)) (r r' : ResourceId)
    (h : ¬ r' = r) :
    (l.filter (fun p => ¬ p.1 = r)).find? (fun p => p.1 = r') =
      l.find? (fun p => p.1 = r') := by
  apply find?_filter_key
  intro p hp
  rw [decide_eq_true_eq]
  rw [hp]
  exact h

theorem find?_filter_self (l : List (ResourceId × LockRequestRec)) (r : ResourceId) :
    (l.filter (fun p => ¬ p.1 = r)).find? (fun p => p.1 = r) = none := by
  apply find?_filter_drop
  intro p hp
  rw [decide_eq_false_iff_not]
  rw [hp]
  exact fun e => e rfl

theorem unlockImpl_full (st : LockerState) (r : ResourceId) (m : LockMode)
    (h : findRequest st r = some ⟨m, 1⟩) :
    ∃ st', unlockImpl st r = some (true, st') ∧
      st'.requests = st.requests.filter (fun p => ¬ p.1 = r) ∧
      st'.wuowNestingLevel = st.wuowNestingLevel ∧
      st'.resourcesToUnlockAtEndOfUnitOfWork = st.resourcesToUnlockAtEndOfUnitOfWork := by
  by_cases hg : r = resourceIdGlobal
  · subst hg
    refine ⟨{ st with
        requests := st.requests.filter (fun p => ¬ p.1 = resourceIdGlobal),
        modeForTicket := MODE_NONE, clientState := kInactive }, ?_, rfl, rfl, rfl⟩
    simp [unlockImpl, h]
  · refine ⟨{ st with requests := st.requests.filter (fun p => ¬ p.1 = r) },
      ?_, rfl, rfl, rfl⟩
    simp [unlockImpl, h, hg]

theorem findRequest_filter_ne (st : LockerState) (reqs : List (ResourceId × LockRequestRec))
    (r r' : ResourceId) (h : ¬ r' = r)
    (hst : st.requests = reqs.filter (fun p => ¬ p.1 = r)) :
    findRequest st r' = (findRequest { st with requests := reqs } r') := by
  simp only [findRequest, hst]
  rw [find?_filter_ne _ _ _ h]

end MLock

namespace MLock

open LockMode ResourceType ClientState LockResult

theorem shouldDelayUnlock_eq_true_iff (resId : ResourceId) (mode : LockMode) :
    shouldDelayUnlock resId mode = some true ↔
      ((resId.resType = RESOURCE_DATABASE ∨ resId.resType = RESOURCE_COLLECTION ∨
        resId.resType = RESOURCE_METADATA) ∧ (mode = MODE_X ∨ mode = MODE_IX)) := by
  obtain ⟨t, h⟩ := resId
  cases t <;> cases mode <;> simp [shouldDelayUnlock]

theorem drainUnlockQueue_releases (q : List ResourceId) :
    ∀ st : LockerState, st.wuowNestingLevel = 0 → q.Nodup →
    (∀ r ∈ q, ∃ m, findRequest st r = some ⟨m, 1⟩) →
    ∃ st', drainUnlockQueue q st = some st' ∧
      st'.wuowNestingLevel = 0 ∧
      st'.resourcesToUnlockAtEndOfUnitOfWork = st.resourcesToUnlockAtEndOfUnitOfWork ∧
      st'.requests = st.requests.filter (fun p => ¬ p.1 ∈ q) := by
  induction q with
  | nil =>
    intro st hw _ _
    refine ⟨st, rfl, hw, rfl, ?_⟩
    simp
  | cons r rs ih =>
    intro st hw hnd hmem
    obtain ⟨m, hfind⟩ := hmem r (List.mem_cons_self r rs)
    obtain ⟨st1, hu, hreq1, hw1, hq1⟩ := unlockImpl_full st r m hfind
    have hUnlock : lockerUnlock st r = some (true, st1) := by
      unfold lockerUnlock
      rw [hfind]
      simp only [hw, gt_iff_lt, lt_irrefl, if_false]
      exact hu
    have hnd' := (List.nodup_cons.mp hnd)
    have hmem1 : ∀ r' ∈ rs, ∃ m', findRequest st1 r' = some ⟨m', 1⟩ := by
      intro r' hr'
      obtain ⟨m', hm'⟩ := hmem r' (List.mem_cons_of_mem r hr')
      refine ⟨m', ?_⟩
      have hne : ¬ r' = r := fun e => hnd'.1 (e ▸ hr')
      unfold findRequest
      rw [hreq1, find?_filter_ne _ _ _ hne]
      exact hm'
    obtain ⟨st', hdrain, hw', hq', hreq'⟩ := ih st1 (hw1.trans hw) hnd'.2 hmem1
    refine ⟨st', ?_, hw', hq'.trans hq1, ?_⟩
    · unfold drainUnlockQueue
      rw [hUnlock]
      exact hdrain
    · rw [hreq', hreq1, List.filter_filter]
      apply List.filter_congr
      intro p _
      rcases instDecidableEqResourceId p.1 r with hne | heq
      · simp [hne, List.mem_cons]
      · simp [heq, List.mem_cons]

end MLock

namespace MLock

open LockMode ResourceType ClientState LockResult

/-- C1 (amended): for a held resource with a valid (type, mode)
combination, an `unlock` issued while the write-unit-of-work nesting
depth is positive defers the release — returning false, leaving the
request map unchanged, and pushing the resource on the deferred queue —
exactly when the resource is a database, collection, or METADATA
resource held in MODE_X or MODE_IX; a nested `endWriteUnitOfWork`
releases nothing (it only decrements the nesting level); the outermost
`endWriteUnitOfWork` empties the deferred queue and releases every
deferred resource. -/
theorem C1_wuow_unlock_defer (st : LockerState) (resId : ResourceId) (req : LockRequestRec)
    (hfind : findRequest st resId = some req)
    (hvalid : (shouldDelayUnlock resId req.mode).isSome) :
    (0 < st.wuowNestingLevel →
      (lockerUnlock st resId =
          some (false, { st with resourcesToUnlockAtEndOfUnitOfWork :=
            st.resourcesToUnlockAtEndOfUnitOfWork ++ [resId] }) ↔
        ((resId.resType = RESOURCE_DATABASE ∨ resId.resType = RESOURCE_COLLECTION ∨
          resId.resType = RESOURCE_METADATA) ∧ (req.mode = MODE_X ∨ req.mode = MODE_IX))))
    ∧ (1 < st.wuowNestingLevel →
        endWriteUnitOfWork st = some { st with wuowNestingLevel := st.wuowNestingLevel - 1 })
    ∧ (st.wuowNestingLevel = 1 →
        st.resourcesToUnlockAtEndOfUnitOfWork.Nodup →
        (∀ r ∈ st.resourcesToUnlockAtEndOfUnitOfWork, ∃ m, findRequest st r = some ⟨m, 1⟩) →
        ∃ st', endWriteUnitOfWork st = some st' ∧
          st'.resourcesToUnlockAtEndOfUnitOfWork = [] ∧
          st'.requests = st.requests.filter
            (fun p => ¬ p.1 ∈ st.resourcesToUnlockAtEndOfUnitOfWork)) := by
  refine ⟨?_, ?_, ?_⟩
  · intro hw
    obtain ⟨d, hd⟩ := Option.isSome_iff_exists.mp hvalid
    cases d with
    | true =>
      have hrun : lockerUnlock st resId =
          some (false, { st with resourcesToUnlockAtEndOfUnitOfWork :=
            st.resourcesToUnlockAtEndOfUnitOfWork ++ [resId] }) := by
        unfold lockerUnlock
        rw [hfind]
        simp only [gt_iff_lt, hw, if_true, hd]
      exact ⟨fun _ => (shouldDelayUnlock_eq_true_iff resId req.mode).mp hd, fun _ => hrun⟩
    | false =>
      have hrun : lockerUnlock st resId = unlockImpl st resId := by
        unfold lockerUnlock
        rw [hfind]
        simp only [gt_iff_lt, hw, if_true, hd]
      constructor
      · intro heq
        exfalso
        rw [hrun] at heq
        unfold unlockImpl at heq
        rw [hfind] at heq
        by_cases hc : req.recursiveCount ≤ 1
        · simp only [hc, if_true, Option.some.injEq, Prod.mk.injEq] at heq
          exact Bool.true_eq_false.mp heq.1
        · simp only [hc, if_false, Option.some.injEq, Prod.mk.injEq, true_and] at heq
          have hfield := congrArg LockerState.resourcesToUnlockAtEndOfUnitOfWork heq
          have hlen := congrArg List.length hfield
          simp at hlen
      · intro hrhs
        exfalso
        have : shouldDelayUnlock resId req.mode = some true :=
          (shouldDelayUnlock_eq_true_iff resId req.mode).mpr hrhs
        rw [hd] at this
        simp at this
  · intro h1
    unfold endWriteUnitOfWork
    rw [if_neg (by omega), if_pos h1]
  · intro h1 hnd hmem
    obtain ⟨st', hdrain, _, hq', hreq'⟩ :=
      drainUnlockQueue_releases st.resourcesToUnlockAtEndOfUnitOfWork
        { st with wuowNestingLevel := 0, resourcesToUnlockAtEndOfUnitOfWork := [] }
        rfl hnd hmem
    refine ⟨st', ?_, hq', hreq'⟩
    unfold endWriteUnitOfWork
    rw [if_neg (by omega), if_neg (by omega)]
    exact hdrain

/-- C1 counterexample: a METADATA resource held in MODE_X inside a write
unit of work is also deferred by `unlock` (it returns false and pushes
the resource on the deferred queue), although it is neither a database
nor a collection resource — so "defers exactly when R is a database or
collection resource" is false on the code. -/
theorem C1_counterexample :
    (lockerUnlock
        { requests := [(⟨RESOURCE_METADATA, 7⟩, ⟨MODE_X, 1⟩)], wuowNestingLevel := 1,
          resourcesToUnlockAtEndOfUnitOfWork := [], modeForTicket := MODE_NONE,
          clientState := kInactive }
        ⟨RESOURCE_METADATA, 7⟩ =
      some (false,
        { requests := [(⟨RESOURCE_METADATA, 7⟩, ⟨MODE_X, 1⟩)], wuowNestingLevel := 1,
          resourcesToUnlockAtEndOfUnitOfWork := [⟨RESOURCE_METADATA, 7⟩],
          modeForTicket := MODE_NONE, clientState := kInactive }))
    ∧ ¬ ((⟨RESOURCE_METADATA, 7⟩ : ResourceId).resType = RESOURCE_DATABASE ∨
         (⟨RESOURCE_METADATA, 7⟩ : ResourceId).resType = RESOURCE_COLLECTION) := by
  decide

theorem C1_wuow_unlock_defer_witness :
    (findRequest C1stW C1rW = some ⟨MODE_IX, 1⟩ ∧
      (shouldDelayUnlock C1rW (⟨MODE_IX, 1⟩ : LockRequestRec).mode).isSome) ∧
    ((0 < C1stW.wuowNestingLevel →
      (lockerUnlock C1stW C1rW =
          some (false, { C1stW with resourcesToUnlockAtEndOfUnitOfWork :=
            C1stW.resourcesToUnlockAtEndOfUnitOfWork ++ [C1rW] }) ↔
        ((C1rW.resType = RESOURCE_DATABASE ∨ C1rW.resType = RESOURCE_COLLECTION ∨
          C1rW.resType = RESOURCE_METADATA) ∧
          ((⟨MODE_IX, 1⟩ : LockRequestRec).mode = MODE_X ∨
            (⟨MODE_IX, 1⟩ : LockRequestRec).mode = MODE_IX))))
    ∧ (1 < C1stW.wuowNestingLevel →
        endWriteUnitOfWork C1stW =
          some { C1stW with wuowNestingLevel := C1stW.wuowNestingLevel - 1 })
    ∧ (C1stW.wuowNestingLevel = 1 →
        C1stW.resourcesToUnlockAtEndOfUnitOfWork.Nodup →
        (∀ r ∈ C1stW.resourcesToUnlockAtEndOfUnitOfWork,
          ∃ m, findRequest C1stW r = some ⟨m, 1⟩) →
        ∃ st', endWriteUnitOfWork C1stW = some st' ∧
          st'.resourcesToUnlockAtEndOfUnitOfWork = [] ∧
          st'.requests = C1stW.requests.filter
            (fun p => ¬ p.1 ∈ C1stW.resourcesToUnlockAtEndOfUnitOfWork))) :=
  ⟨⟨by decide, by decide⟩,
    C1_wuow_unlock_defer C1stW C1rW ⟨MODE_IX, 1⟩ (by decide) (by decide)⟩

end MLock

namespace MLock

open LockMode ResourceType ClientState LockResult

theorem lockCompleteLoop_waits_le (cd hc : Bool) (tm : Option Nat) :
    ∀ (evs : List WakeEvent) (wt el : Nat) (ws : List Nat) (res : LockResult)
      (waits : List Nat),
      wt ≤ DeadlockTimeoutMs → (∀ w ∈ ws, w ≤ DeadlockTimeoutMs) →
      lockCompleteLoop cd hc tm evs wt el ws = some (res, waits) →
      ∀ w ∈ waits, w ≤ DeadlockTimeoutMs := by
  intro evs
  induction evs with
  | nil =>
    intro wt el ws res waits _ _ h
    exact absurd h (by simp [lockCompleteLoop])
  | cons ev evs ih =>
    intro wt el ws res waits hwt hws h
    have hws' : ∀ w ∈ ws ++ [wt], w ≤ DeadlockTimeoutMs := by
      intro w hw
      rcases List.mem_append.mp hw with h1 | h1
      · exact hws w h1
      · rw [List.mem_singleton.mp h1]; exact hwt
    unfold lockCompleteLoop at h
    by_cases h1 : ev.notifyResult = LOCK_OK
    · simp only [h1, if_true] at h
      obtain ⟨_, h3⟩ := Prod.mk.injEq .. ▸ (Option.some.injEq .. ▸ h)
      exact h3 ▸ hws'
    · simp only [h1, if_false] at h
      by_cases h2 : cd && hc
      · simp only [h2, if_true] at h
        obtain ⟨_, h3⟩ := Prod.mk.injEq .. ▸ (Option.some.injEq .. ▸ h)
        exact h3 ▸ hws'
      · simp only [h2, if_false] at h
        cases tm with
        | none => exact ih _ _ _ _ _ hwt hws' h
        | some t =>
          set wt' := if (el + ev.elapsedMicros) / 1000 < t then
            min (t - (el + ev.elapsedMicros) / 1000) DeadlockTimeoutMs else 0 with hwt'
          by_cases h3 : wt' = 0
          · simp only [← hwt', h3, if_true] at h
            obtain ⟨_, h4⟩ := Prod.mk.injEq .. ▸ (Option.some.injEq .. ▸ h)
            exact h4 ▸ hws'
          · simp only [← hwt', h3, if_false] at h
            refine ih _ _ _ _ _ ?_ hws' h
            rw [hwt']
            split
            · exact min_le_right _ _
            · exact Nat.zero_le _

/-- C2: whenever `lockComplete` finishes, every sleep it performed on the
grant notification lasted at most DeadlockTimeout = 500 ms; if deadlock
checking was requested and the first wakeup finds the lock still not
granted, the deadlock detector runs and the call returns LOCK_DEADLOCK
when a cycle reachable from this locker exists; and on every result
other than LOCK_OK the locker's queued request for the resource is
detached (removed from the request map) before returning. -/
theorem C2_lockComplete_behavior (st : LockerState) (resId : ResourceId)
    (timeoutMs : Option Nat) (checkDeadlock hasCycle : Bool) (events : List WakeEvent)
    (result : LockResult) (waits : List Nat) (st' : LockerState)
    (hrun : lockComplete st resId timeoutMs checkDeadlock hasCycle events =
      some (result, waits, st')) :
    (∀ w ∈ waits, w ≤ DeadlockTimeoutMs)
    ∧ (checkDeadlock = true → hasCycle = true →
        ∀ ev evs, events = ev :: evs → ev.notifyResult ≠ LOCK_OK →
          result = LOCK_DEADLOCK)
    ∧ (result ≠ LOCK_OK →
        ∀ m, findRequest st resId = some ⟨m, 1⟩ → findRequest st' resId = none) := by
  unfold lockComplete at hrun
  set wt0 := match timeoutMs with
    | none => DeadlockTimeoutMs
    | some t => min t DeadlockTimeoutMs with hwt0
  have hwt0le : wt0 ≤ DeadlockTimeoutMs := by
    rw [hwt0]
    cases timeoutMs with
    | none => exact le_refl _
    | some t => exact min_le_right _ _
  rcases hl : lockCompleteLoop checkDeadlock hasCycle timeoutMs events wt0 0 [] with
    _ | ⟨res0, ws0⟩
  · rw [hl] at hrun
    exact absurd hrun (by simp)
  · rw [hl] at hrun
    simp only [] at hrun
    have hbasic : result = res0 ∧ waits = ws0 ∧
        (res0 = LOCK_OK ∧ st' = st ∨
          res0 ≠ LOCK_OK ∧ ∃ b, unlockImpl st resId = some (b, st')) := by
      by_cases hres0 : res0 = LOCK_OK
      · rw [if_pos hres0] at hrun
        have h := Option.some.inj hrun
        exact ⟨(congrArg Prod.fst h).symm, (congrArg (fun x => x.2.1) h).symm,
          Or.inl ⟨hres0, (congrArg (fun x => x.2.2) h).symm⟩⟩
      · rw [if_neg hres0] at hrun
        rcases hu : unlockImpl st resId with _ | ⟨b, stu⟩
        · rw [hu] at hrun
          exact absurd hrun (by simp)
        · rw [hu] at hrun
          have h2 : (some (res0, ws0, stu) :
              Option (LockResult × List Nat × LockerState)) =
              some (result, waits, st') := hrun
          have h := Option.some.inj h2
          have hstu : stu = st' := congrArg (fun x => x.2.2) h
          exact ⟨(congrArg Prod.fst h).symm, (congrArg (fun x => x.2.1) h).symm,
            Or.inr ⟨hres0, b, congrArg (fun x => some (b, x)) hstu⟩⟩
    obtain ⟨hres, hwaits, hrest⟩ := hbasic
    refine ⟨?_, ?_, ?_⟩
    · rw [hwaits]
      exact lockCompleteLoop_waits_le checkDeadlock hasCycle timeoutMs events wt0 0 []
        res0 ws0 hwt0le (by intro w hw; exact absurd hw (List.not_mem_nil w)) hl
    · intro hcd hhc ev evs hev hne
      rw [hev] at hl
      unfold lockCompleteLoop at hl
      simp only [hne, if_false, hcd, hhc, Bool.and_self, if_true] at hl
      obtain ⟨h1, _⟩ := Prod.mk.injEq .. ▸ (Option.some.injEq .. ▸ hl)
      rw [hres, ← h1]
    · intro hnok m hm
      rcases hrest with ⟨hok, _⟩ | ⟨_, b, hu⟩
      · exact absurd (hres.trans hok) hnok
      · obtain ⟨stu', hu', hreq', _, _⟩ := unlockImpl_full st resId m hm
        rw [hu'] at hu
        have h := Option.some.inj hu
        have hst : stu' = st' := congrArg Prod.snd h
        unfold findRequest
        rw [← hst, hreq']
        simp only [find?_filter_self, Option.map_none']

theorem C2_lockComplete_behavior_witness :
    (lockComplete C2stW ⟨RESOURCE_DATABASE, 5⟩ (some 100) false false
        [⟨LOCK_TIMEOUT, 600000⟩] =
      some (LOCK_TIMEOUT, [100],
        { requests := [], wuowNestingLevel := 0,
          resourcesToUnlockAtEndOfUnitOfWork := [], modeForTicket := MODE_NONE,
          clientState := kInactive })) ∧
    ((∀ w ∈ [100], w ≤ DeadlockTimeoutMs)
    ∧ (false = true → false = true →
        ∀ ev evs, ([⟨LOCK_TIMEOUT, 600000⟩] : List WakeEvent) = ev :: evs →
          ev.notifyResult ≠ LOCK_OK → LOCK_TIMEOUT = LOCK_DEADLOCK)
    ∧ (LOCK_TIMEOUT ≠ LOCK_OK →
        ∀ m, findRequest C2stW ⟨RESOURCE_DATABASE, 5⟩ = some ⟨m, 1⟩ →
          findRequest
            { requests := [], wuowNestingLevel := 0,
              resourcesToUnlockAtEndOfUnitOfWork := [], modeForTicket := MODE_NONE,
              clientState := kInactive } ⟨RESOURCE_DATABASE, 5⟩ = none)) :=
  ⟨by decide,
    C2_lockComplete_behavior C2stW ⟨RESOURCE_DATABASE, 5⟩ (some 100) false false
      [⟨LOCK_TIMEOUT, 600000⟩] LOCK_TIMEOUT [100] _ (by decide)⟩

end MLock

namespace MLock

open LockMode ResourceType ClientState LockResult

theorem find?_of_nodup_keys {β : Type} (l : List (ResourceId × β))
    (hnd : (l.map Prod.fst).Nodup) (r : ResourceId) (v : β) (hm : (r, v) ∈ l) :
    l.find? (fun p => p.1 = r) = some (r, v) := by
  induction l with
  | nil => exact absurd hm (List.not_mem_nil _)
  | cons a as ih =>
    rw [List.map_cons, List.nodup_cons] at hnd
    rw [List.find?_cons]
    by_cases ha : a.1 = r
    · rw [decide_eq_true ha]
      rcases List.mem_cons.mp hm with h | h
      · rw [h]
      · exact absurd (ha ▸ List.mem_map_of_mem Prod.fst h) hnd.1
    · rw [decide_eq_false ha]
      rcases List.mem_cons.mp hm with h | h
      · exact absurd (congrArg Prod.fst h.symm) ha
      · exact ih hnd.2 h

theorem find?_of_not_key {β : Type} (l : List (ResourceId × β)) (r : ResourceId)
    (h : ¬ r ∈ l.map Prod.fst) :
    l.find? (fun p => p.1 = r) = none := by
  rw [List.find?_eq_none]
  intro p hp
  rw [decide_eq_true_eq]
  intro e
  exact h (e ▸ List.mem_map_of_mem Prod.fst hp)

theorem unlockImpl_eq_nonglobal (st : LockerState) (r : ResourceId) (m : LockMode)
    (h : findRequest st r = some ⟨m, 1⟩) (hg : ¬ r = resourceIdGlobal) :
    unlockImpl st r =
      some (true, { st with requests := st.requests.filter (fun p => ¬ p.1 = r) }) := by
  unfold unlockImpl
  rw [h]
  simp [hg]

theorem unlockImpl_eq_global (st : LockerState) (m : LockMode)
    (h : findRequest st resourceIdGlobal = some ⟨m, 1⟩) :
    unlockImpl st resourceIdGlobal =
      some (true, { st with
        requests := st.requests.filter (fun p => ¬ p.1 = resourceIdGlobal),
        modeForTicket := MODE_NONE, clientState := kInactive }) := by
  unfold unlockImpl
  rw [h]
  simp

theorem lockerUnlock_of_no_wuow (st : LockerState) (r : ResourceId)
    (hw : st.wuowNestingLevel = 0) :
    lockerUnlock st r = (match findRequest st r with
      | none => none
      | some _ => unlockImpl st r) := by
  unfold lockerUnlock
  cases hfr : findRequest st r with
  | none => rfl
  | some req =>
    simp only [gt_iff_lt, hw, lt_irrefl, if_false]

theorem saveLoop_spec :
    ∀ (entries : List (ResourceId × LockRequestRec)) (st : LockerState) (acc : List OneLock),
      st.wuowNestingLevel = 0 →
      (entries.map Prod.fst).Nodup →
      (∀ p ∈ entries, findRequest st p.1 = some p.2) →
      (∀ p ∈ entries, ¬ p.1 = resourceIdGlobal) →
      (∀ p ∈ entries, ¬ p.1.resType = RESOURCE_MUTEX →
        validSaveEntry p.1 p.2 = true ∧ p.2.recursiveCount = 1) →
      ∃ stF, saveLoop entries st acc =
          some (acc ++ (entries.filter (fun p => ¬ p.1.resType = RESOURCE_MUTEX)).map
            (fun p => ⟨p.1, p.2.mode⟩), stF) ∧
        stF.wuowNestingLevel = 0 ∧
        stF.resourcesToUnlockAtEndOfUnitOfWork = st.resourcesToUnlockAtEndOfUnitOfWork ∧
        stF.modeForTicket = st.modeForTicket ∧
        stF.clientState = st.clientState ∧
        stF.requests = st.requests.filter
          (fun p => p.1.resType = RESOURCE_MUTEX ∨ ¬ p.1 ∈ entries.map Prod.fst) := by
  intro entries
  induction entries with
  | nil =>
    intro st acc hw _ _ _ _
    refine ⟨st, ?_, hw, rfl, rfl, rfl, ?_⟩
    · simp [saveLoop]
    · simp
  | cons e rest ih =>
    intro st acc hw hnd hfind hng hvalid
    obtain ⟨r, req⟩ := e
    rw [List.map_cons, List.nodup_cons] at hnd
    by_cases hr : r.resType = RESOURCE_MUTEX
    · obtain ⟨stF, hloop, hw', hq', ht', hc', hreq'⟩ := ih st acc hw hnd.2
        (fun p hp => hfind p (List.mem_cons_of_mem _ hp))
        (fun p hp => hng p (List.mem_cons_of_mem _ hp))
        (fun p hp h => hvalid p (List.mem_cons_of_mem _ hp) h)
      refine ⟨stF, ?_, hw', hq', ht', hc', ?_⟩
      · unfold saveLoop
        rw [if_pos hr, hloop]
        congr 2
        rw [List.filter_cons, if_neg (by simp [hr])]
      · rw [hreq']
        apply List.filter_congr
        intro p _
        by_cases hp : p.1 = r
        · simp [hp, hr]
        · have hb : (p.1 == r) = false := beq_eq_false_iff_ne.mpr hp
          simp [hb, List.mem_cons, hp]
    · obtain ⟨hvv, hc⟩ := hvalid (r, req) (List.mem_cons_self _ _) hr
      have hfr := hfind (r, req) (List.mem_cons_self _ _)
      have hfr1 : findRequest st r = some ⟨req.mode, 1⟩ := by
        rw [hfr]
        obtain ⟨mo, c⟩ := req
        simp only at hc
        rw [hc]
      have hgr := hng (r, req) (List.mem_cons_self _ _)
      have hu := unlockImpl_eq_nonglobal st r req.mode hfr1 hgr
      have hUnlock : lockerUnlock st r =
          some (true, { st with requests := st.requests.filter (fun p => ¬ p.1 = r) }) := by
        rw [lockerUnlock_of_no_wuow st r hw, hfr]
        exact hu
      set st1 : LockerState :=
        { st with requests := st.requests.filter (fun p => ¬ p.1 = r) } with hst1
      have hf1 : ∀ p ∈ rest, findRequest st1 p.1 = some p.2 := by
        intro p hp
        have hne : ¬ p.1 = r := by
          intro e
          have hmm := List.mem_map_of_mem Prod.fst hp
          rw [e] at hmm
          exact hnd.1 hmm
        unfold findRequest
        rw [hst1]
        simp only []
        rw [find?_filter_ne _ _ _ hne]
        exact hfind p (List.mem_cons_of_mem _ hp)
      obtain ⟨stF, hloop, hw', hq', ht', hc', hreq'⟩ := ih st1 (acc ++ [⟨r, req.mode⟩]) hw hnd.2
        hf1
        (fun p hp => hng p (List.mem_cons_of_mem _ hp))
        (fun p hp h => hvalid p (List.mem_cons_of_mem _ hp) h)
      refine ⟨stF, ?_, hw', hq', ht', hc', ?_⟩
      · unfold saveLoop
        rw [if_neg hr, if_pos hvv, hUnlock]
        show saveLoop rest st1 (acc ++ [⟨r, req.mode⟩]) = _
        rw [hloop]
        congr 2
        rw [List.filter_cons, if_pos (by simp [hr]), List.map_cons]
        simp
      · rw [hreq', hst1]
        simp only []
        rw [List.filter_filter]
        apply List.filter_congr
        intro p _
        by_cases hp : p.1 = r
        · simp [beq_iff_eq, hp, hr, List.mem_cons]
        · have hb : (p.1 == r) = false := beq_eq_false_iff_ne.mpr hp
          simp [hb, List.mem_cons, hp]

end MLock

namespace MLock

open LockMode ResourceType ClientState LockResult

theorem find?_append_none {α : Type} (l1 l2 : List α) (p : α → Bool)
    (h : l1.find? p = none) : (l1 ++ l2).find? p = l2.find? p := by
  induction l1 with
  | nil => rfl
  | cons a as ih =>
    rw [List.find?_cons] at h
    cases hp : p a with
    | true => rw [hp] at h; exact absurd h (by simp)
    | false =>
      rw [hp] at h
      rw [List.cons_append, List.find?_cons, hp]
      exact ih h

theorem find?_append_some {α : Type} (l1 l2 : List α) (p : α → Bool) (a : α)
    (h : l1.find? p = some a) : (l1 ++ l2).find? p = some a := by
  induction l1 with
  | nil => exact absurd h (by simp)
  | cons b bs ih =>
    rw [List.find?_cons] at h
    cases hp : p b with
    | true =>
      rw [hp] at h
      rw [List.cons_append, List.find?_cons, hp]
      exact h
    | false =>
      rw [hp] at h
      rw [List.cons_append, List.find?_cons, hp]
      exact ih h

theorem saveLockStateAndUnlock_spec (st : LockerState) (gm : LockMode)
    (hw : st.wuowNestingLevel = 0)
    (hnd : (st.requests.map Prod.fst).Nodup)
    (hg : findRequest st resourceIdGlobal = some ⟨gm, 1⟩)
    (hok : ∀ p ∈ st.requests, ¬ p.1 = resourceIdGlobal → ¬ p.1.resType = RESOURCE_MUTEX →
      validSaveEntry p.1 p.2 = true ∧ p.2.recursiveCount = 1) :
    ∃ stF, saveLockStateAndUnlock st =
        some (true, ⟨gm, (savedPairs st).insertionSort OneLock.le⟩, stF) ∧
      stF.wuowNestingLevel = 0 ∧
      stF.modeForTicket = MODE_NONE ∧
      stF.clientState = kInactive ∧
      stF.requests = st.requests.filter (fun p => p.1.resType = RESOURCE_MUTEX) := by
  have hu := unlockImpl_eq_global st gm hg
  have hUnlock : lockerUnlock st resourceIdGlobal =
      some (true, { st with
        requests := st.requests.filter (fun p => ¬ p.1 = resourceIdGlobal),
        modeForTicket := MODE_NONE, clientState := kInactive }) := by
    rw [lockerUnlock_of_no_wuow st resourceIdGlobal hw, hg]
    exact hu
  set st1 : LockerState := { st with
    requests := st.requests.filter (fun p => ¬ p.1 = resourceIdGlobal),
    modeForTicket := MODE_NONE, clientState := kInactive } with hst1
  have hsub : st1.requests.Sublist st.requests := List.filter_sublist _
  have hnd1 : (st1.requests.map Prod.fst).Nodup :=
    ((hsub.map Prod.fst).nodup hnd)
  have hfind1 : ∀ p ∈ st1.requests, findRequest st1 p.1 = some p.2 := by
    intro p hp
    unfold findRequest
    rw [find?_of_nodup_keys st1.requests hnd1 p.1 p.2 hp]
    rfl
  have hng1 : ∀ p ∈ st1.requests, ¬ p.1 = resourceIdGlobal := by
    intro p hp
    have := (List.mem_filter.mp hp).2
    rw [decide_eq_true_eq] at this
    exact this
  have hvalid1 : ∀ p ∈ st1.requests, ¬ p.1.resType = RESOURCE_MUTEX →
      validSaveEntry p.1 p.2 = true ∧ p.2.recursiveCount = 1 := by
    intro p hp hm
    exact hok p (List.mem_filter.mp hp).1 (hng1 p hp) hm
  obtain ⟨stF, hloop, hwF, _, htF, hcF, hreqF⟩ :=
    saveLoop_spec st1.requests st1 [] hw hnd1 hfind1 hng1 hvalid1
  have hlist : ([] : List OneLock) ++ (st1.requests.filter
      (fun p => ¬ p.1.resType = RESOURCE_MUTEX)).map
        (fun p => (⟨p.1, p.2.mode⟩ : OneLock)) = savedPairs st := by
    rw [List.nil_append]
    show ((st.requests.filter (fun p => ¬ p.1 = resourceIdGlobal)).filter
        (fun p => ¬ p.1.resType = RESOURCE_MUTEX)).map
          (fun p => (⟨p.1, p.2.mode⟩ : OneLock)) = _
    unfold savedPairs
    rw [List.filter_filter]
    congr 1
    apply List.filter_congr
    intro p _
    by_cases h1 : p.1 = resourceIdGlobal <;>
      by_cases h2 : p.1.resType = RESOURCE_MUTEX <;> simp [h1, h2]
  rw [hlist] at hloop
  refine ⟨stF, ?_, hwF, htF.trans rfl, hcF.trans rfl, ?_⟩
  · unfold saveLockStateAndUnlock
    rw [if_neg (by rw [hw]; exact fun h => h rfl)]
    simp only [hg, lt_self_iff_false, if_false, hUnlock, hloop]
  · rw [hreqF]
    show (st.requests.filter (fun p => ¬ p.1 = resourceIdGlobal)).filter _ = _
    rw [List.filter_filter]
    apply List.filter_congr
    intro p hpmem
    by_cases hp : p.1.resType = RESOURCE_MUTEX
    · have hpg : ¬ p.1 = resourceIdGlobal := by
        intro e
        rw [e] at hp
        exact absurd hp (by decide)
      simp [hp, hpg]
    · simp [hp]
      intro h
      exact h p.2 hpmem

end MLock

namespace MLock

open LockMode ResourceType ClientState LockResult

theorem acquireRequest_fresh (st : LockerState) (r : ResourceId) (mode : LockMode)
    (h : findRequest st r = none) :
    acquireRequest st r mode = { st with requests := st.requests ++ [(r, ⟨mode, 1⟩)] } := by
  unfold acquireRequest
  rw [h]

theorem lockGlobalModel_eq (st : LockerState) (mode : LockMode)
    (h : st.modeForTicket = MODE_NONE) :
    lockGlobalModel st mode = acquireRequest { st with
      clientState := if isSharedLockMode mode then kActiveReader else kActiveWriter,
      modeForTicket := mode } resourceIdGlobal mode := by
  unfold lockGlobalModel lockGlobalBegin
  rw [if_pos h]
  cases htk : ticketHolderFor mode with
  | none => simp
  | some pool => simp

theorem foldl_acquire_fresh :
    ∀ (ls : List OneLock) (st : LockerState),
      (∀ l ∈ ls, findRequest st l.resourceId = none) →
      (ls.map OneLock.resourceId).Nodup →
      ls.foldl (fun s l => acquireRequest s l.resourceId l.mode) st =
        { st with requests := st.requests ++ ls.map toReqPair } := by
  intro ls
  induction ls with
  | nil =>
    intro st _ _
    simp
  | cons l ls ih =>
    intro st hfresh hnd
    rw [List.map_cons, List.nodup_cons] at hnd
    rw [List.foldl_cons,
      acquireRequest_fresh st l.resourceId l.mode (hfresh l (List.mem_cons_self _ _))]
    set st1 : LockerState :=
      { st with requests := st.requests ++ [(l.resourceId, ⟨l.mode, 1⟩)] } with hst1
    have hfresh1 : ∀ l' ∈ ls, findRequest st1 l'.resourceId = none := by
      intro l' hl'
      have hne : ¬ l'.resourceId = l.resourceId := by
        intro e
        exact hnd.1 (e ▸ List.mem_map_of_mem OneLock.resourceId hl')
      unfold findRequest
      rw [hst1]
      simp only []
      rw [find?_append_none]
      · have hne' : ¬ l.resourceId = l'.resourceId := fun e => hne e.symm
        simp [hne']
      · have := hfresh l' (List.mem_cons_of_mem _ hl')
        unfold findRequest at this
        exact Option.map_eq_none'.mp this
    rw [ih st1 hfresh1 hnd.2, hst1]
    simp [toReqPair]

end MLock

namespace MLock

open LockMode ResourceType ClientState LockResult

theorem find?_key_perm {β : Type} (l1 l2 : List (ResourceId × β)) (h : l1.Perm l2)
    (hnd : (l1.map Prod.fst).Nodup) (r : ResourceId) :
    l1.find? (fun p => p.1 = r) = l2.find? (fun p => p.1 = r) := by
  cases hf : l1.find? (fun p => p.1 = r) with
  | some a =>
    have hmem : a ∈ l2 := h.mem_iff.mp (List.mem_of_find?_eq_some hf)
    have hkey : a.1 = r := by
      have := List.find?_some hf
      rwa [decide_eq_true_eq] at this
    have hnd2 : (l2.map Prod.fst).Nodup := (h.map Prod.fst).nodup_iff.mp hnd
    have : l2.find? (fun p => p.1 = r) = some (r, a.2) :=
      find?_of_nodup_keys l2 hnd2 r a.2 (by rw [← hkey]; exact hmem)
    rw [this, ← hkey]
  | none =>
    rw [List.find?_eq_none] at hf
    symm
    rw [List.find?_eq_none]
    intro a ha
    exact hf a (h.mem_iff.mpr ha)

theorem savedPairs_mem_shape (st : LockerState)
    (hok : ∀ p ∈ st.requests, ¬ p.1 = resourceIdGlobal → ¬ p.1.resType = RESOURCE_MUTEX →
      validSaveEntry p.1 p.2 = true ∧ p.2.recursiveCount = 1)
    (hglob : ∀ p ∈ st.requests, p.1.resType = RESOURCE_GLOBAL →
      p.1 = resourceIdGlobal ∨ p.1 = resourceIdParallelBatchWriterMode) :
    ∀ l ∈ savedPairs st,
      (l.resourceId = resourceIdParallelBatchWriterMode ∨
        l.resourceId.resType = RESOURCE_DATABASE ∨
        l.resourceId.resType = RESOURCE_COLLECTION) ∧
      ¬ l.resourceId = resourceIdGlobal ∧ ¬ l.resourceId.resType = RESOURCE_MUTEX := by
  intro l hl
  unfold savedPairs at hl
  obtain ⟨p, hpmem, hpl⟩ := List.mem_map.mp hl
  obtain ⟨hpin, hpf⟩ := List.mem_filter.mp hpmem
  rw [decide_eq_true_eq] at hpf
  obtain ⟨hpg, hpm⟩ := hpf
  obtain ⟨hvalid, _⟩ := hok p hpin hpg hpm
  have hrid : l.resourceId = p.1 := by rw [← hpl]
  unfold validSaveEntry at hvalid
  rw [decide_eq_true_eq] at hvalid
  refine ⟨?_, by rw [hrid]; exact hpg, by rw [hrid]; exact hpm⟩
  rcases hvalid with h | h | ⟨h, _⟩
  · exact Or.inr (Or.inl (hrid ▸ h))
  · exact Or.inr (Or.inr (hrid ▸ h))
  · rcases hglob p hpin h with hgl | hpb
    · exact absurd hgl hpg
    · exact Or.inl (hrid ▸ hpb)

theorem savedPairs_keys_nodup (st : LockerState)
    (hnd : (st.requests.map Prod.fst).Nodup) :
    ((savedPairs st).map OneLock.resourceId).Nodup := by
  unfold savedPairs
  rw [List.map_map]
  have : (OneLock.resourceId ∘ fun p : ResourceId × LockRequestRec =>
      (⟨p.1, p.2.mode⟩ : OneLock)) = Prod.fst := by
    funext p
    rfl
  rw [this]
  exact ((List.filter_sublist _).map Prod.fst).nodup hnd

theorem savedPairs_mem_of_req (st : LockerState) (r : ResourceId) (req : LockRequestRec)
    (hmem : (r, req) ∈ st.requests) (hg : ¬ r = resourceIdGlobal)
    (hm : ¬ r.resType = RESOURCE_MUTEX) :
    (⟨r, req.mode⟩ : OneLock) ∈ savedPairs st := by
  unfold savedPairs
  have hmemf : (r, req) ∈ st.requests.filter
      (fun p => ¬ p.1 = resourceIdGlobal ∧ ¬ p.1.resType = RESOURCE_MUTEX) := by
    rw [List.mem_filter]
    exact ⟨hmem, by rw [decide_eq_true_eq]; exact ⟨hg, hm⟩⟩
  exact List.mem_map_of_mem (fun p : ResourceId × LockRequestRec =>
    (⟨p.1, p.2.mode⟩ : OneLock)) hmemf

end MLock

namespace MLock

open LockMode ResourceType ClientState LockResult

theorem snapKeys_nodup (st : LockerState) (snapLocks : List OneLock)
    (hnd : (st.requests.map Prod.fst).Nodup)
    (hperm : snapLocks.Perm (savedPairs st)) :
    ((snapLocks.map toReqPair).map Prod.fst).Nodup := by
  rw [List.map_map]
  have hcomp : (Prod.fst ∘ toReqPair) = OneLock.resourceId := by
    funext l
    rfl
  rw [hcomp]
  exact (hperm.map OneLock.resourceId).nodup_iff.mpr (savedPairs_keys_nodup st hnd)

theorem snapKeys_of_requests (st : LockerState) (snapLocks : List OneLock)
    (hperm : snapLocks.Perm (savedPairs st)) :
    ∀ q ∈ snapLocks.map toReqPair, ∃ p ∈ st.requests,
      q.1 = p.1 ∧ ¬ p.1 = resourceIdGlobal ∧ ¬ p.1.resType = RESOURCE_MUTEX := by
  intro q hq
  obtain ⟨l, hl, hlq⟩ := List.mem_map.mp hq
  have hl' : l ∈ savedPairs st := hperm.mem_iff.mp hl
  unfold savedPairs at hl'
  obtain ⟨p, hpmem, hpl⟩ := List.mem_map.mp hl'
  obtain ⟨hpin, hpf⟩ := List.mem_filter.mp hpmem
  rw [decide_eq_true_eq] at hpf
  refine ⟨p, hpin, ?_, hpf.1, hpf.2⟩
  rw [← hlq, ← hpl]
  rfl

theorem restored_find_eq (st : LockerState) (gm : LockMode) (snapLocks : List OneLock)
    (hnd : (st.requests.map Prod.fst).Nodup)
    (hg : findRequest st resourceIdGlobal = some ⟨gm, 1⟩)
    (hok : ∀ p ∈ st.requests, ¬ p.1 = resourceIdGlobal → ¬ p.1.resType = RESOURCE_MUTEX →
      validSaveEntry p.1 p.2 = true ∧ p.2.recursiveCount = 1)
    (hperm : snapLocks.Perm (savedPairs st))
    (r : ResourceId) :
    ((st.requests.filter (fun p => p.1.resType = RESOURCE_MUTEX) ++
      ((⟨resourceIdGlobal, gm⟩ :: snapLocks : List OneLock)).map toReqPair).find?
        (fun p => p.1 = r)).map Prod.snd = findRequest st r := by
  by_cases hmu : r.resType = RESOURCE_MUTEX
  · have hnotkey : ∀ q ∈ ((⟨resourceIdGlobal, gm⟩ :: snapLocks : List OneLock)).map toReqPair,
        ¬ (fun p : ResourceId × LockRequestRec => decide (p.1 = r)) q = true := by
      intro q hq
      rw [decide_eq_true_eq]
      rw [List.map_cons, List.mem_cons] at hq
      rcases hq with hq | hq
      · intro e
        have : q.1.resType = RESOURCE_GLOBAL := by rw [hq]; rfl
        rw [e, hmu] at this
        exact absurd this (by decide)
      · obtain ⟨p, _, hqp, _, hpm⟩ := snapKeys_of_requests st snapLocks hperm q hq
        intro e
        rw [← e, hqp] at hmu
        exact hpm hmu
    cases hfr : st.requests.find? (fun p => p.1 = r) with
    | some a =>
      have h1 : (st.requests.filter (fun p => p.1.resType = RESOURCE_MUTEX)).find?
          (fun p => p.1 = r) = some a := by
        rw [find?_filter_key st.requests _ r
          (fun p hp => by rw [hp]; exact decide_eq_true hmu)]
        exact hfr
      rw [find?_append_some _ _ _ a h1]
      unfold findRequest
      rw [hfr]
    | none =>
      have h1 : (st.requests.filter (fun p => p.1.resType = RESOURCE_MUTEX)).find?
          (fun p => p.1 = r) = none := by
        rw [find?_filter_key st.requests _ r
          (fun p hp => by rw [hp]; exact decide_eq_true hmu)]
        exact hfr
      rw [find?_append_none _ _ _ h1, List.find?_eq_none.mpr hnotkey]
      unfold findRequest
      rw [hfr]
  · have h1 : (st.requests.filter (fun p => p.1.resType = RESOURCE_MUTEX)).find?
        (fun p => p.1 = r) = none := by
      apply find?_filter_drop
      intro p hp
      rw [hp]
      exact decide_eq_false hmu
    rw [find?_append_none _ _ _ h1, List.map_cons, List.find?_cons]
    by_cases hrg : r = resourceIdGlobal
    · have : decide ((toReqPair ⟨resourceIdGlobal, gm⟩).1 = r) = true := by
        rw [decide_eq_true_eq, hrg]
        rfl
      simp only [this]
      rw [hrg, hg]
      rfl
    · have : decide ((toReqPair ⟨resourceIdGlobal, gm⟩).1 = r) = false := by
        rw [decide_eq_false_iff_not]
        exact fun e => hrg (e.symm)
      simp only [this]
      cases hfr : findRequest st r with
      | some req =>
        unfold findRequest at hfr
        obtain ⟨a, ha, hasnd⟩ := Option.map_eq_some'.mp hfr
        have hakey : a.1 = r := by
          have := List.find?_some ha
          rwa [decide_eq_true_eq] at this
        have hamem : a ∈ st.requests := List.mem_of_find?_eq_some ha
        have hamem' : (r, req) ∈ st.requests := by
          rw [← hakey, ← hasnd]
          exact hamem
        have hcount : req.recursiveCount = 1 :=
          (hok (r, req) hamem' hrg hmu).2
        have hsp : (⟨r, req.mode⟩ : OneLock) ∈ savedPairs st :=
          savedPairs_mem_of_req st r req hamem' hrg hmu
        have hsnap : (⟨r, req.mode⟩ : OneLock) ∈ snapLocks := hperm.mem_iff.mpr hsp
        have hmemmap : ((r, ⟨req.mode, 1⟩) : ResourceId × LockRequestRec) ∈
            snapLocks.map toReqPair :=
          List.mem_map_of_mem toReqPair hsnap
        rw [find?_of_nodup_keys _ (snapKeys_nodup st snapLocks hnd hperm) r _ hmemmap]
        show some (⟨req.mode, 1⟩ : LockRequestRec) = some req
        congr 1
        obtain ⟨mo, c⟩ := req
        simp only at hcount
        rw [hcount]
      | none =>
        have hnone : ∀ a ∈ st.requests, ¬ a.1 = r := by
          intro a ha e
          unfold findRequest at hfr
          obtain ha2 := Option.map_eq_none'.mp hfr
          rw [List.find?_eq_none] at ha2
          have := ha2 a ha
          rw [decide_eq_true_eq] at this
          exact this e
        rw [List.find?_eq_none.mpr ?_]
        · rfl
        · intro q hq
          rw [decide_eq_true_eq]
          obtain ⟨p, hpmem, hqp, _, _⟩ := snapKeys_of_requests st snapLocks hperm q hq
          intro e
          exact hnone p hpmem (by rw [← hqp]; exact e)

end MLock

namespace MLock

open LockMode ResourceType ClientState LockResult

theorem restoreLockState_nil (st : LockerState) (gm : LockMode)
    (hw : st.wuowNestingLevel = 0) (ht : st.modeForTicket = MODE_NONE) :
    restoreLockState st ⟨gm, []⟩ =
      some (lockGlobalModel st gm, [⟨resourceIdGlobal, gm⟩]) := by
  unfold restoreLockState
  rw [if_neg (by rw [hw]; exact fun h => h rfl),
    if_neg (by rw [ht]; exact fun h => h rfl)]

theorem restoreLockState_cons_pbwm (st : LockerState) (gm : LockMode) (pb : OneLock)
    (rest : List OneLock)
    (hw : st.wuowNestingLevel = 0) (ht : st.modeForTicket = MODE_NONE)
    (hkey : pb.resourceId = resourceIdParallelBatchWriterMode) :
    restoreLockState st ⟨gm, pb :: rest⟩ =
      some (rest.foldl (fun s l => acquireRequest s l.resourceId l.mode)
        (lockGlobalModel (acquireRequest st pb.resourceId pb.mode) gm),
        pb :: ⟨resourceIdGlobal, gm⟩ :: rest) := by
  unfold restoreLockState
  rw [if_neg (by rw [hw]; exact fun h => h rfl),
    if_neg (by rw [ht]; exact fun h => h rfl)]
  simp only [hkey, if_true]

theorem restoreLockState_cons_other (st : LockerState) (gm : LockMode) (l0 : OneLock)
    (rest : List OneLock)
    (hw : st.wuowNestingLevel = 0) (ht : st.modeForTicket = MODE_NONE)
    (hkey : ¬ l0.resourceId = resourceIdParallelBatchWriterMode) :
    restoreLockState st ⟨gm, l0 :: rest⟩ =
      some ((l0 :: rest).foldl (fun s l => acquireRequest s l.resourceId l.mode)
        (lockGlobalModel st gm),
        ⟨resourceIdGlobal, gm⟩ :: l0 :: rest) := by
  unfold restoreLockState
  rw [if_neg (by rw [hw]; exact fun h => h rfl),
    if_neg (by rw [ht]; exact fun h => h rfl)]
  simp only [hkey, if_false]

end MLock

namespace MLock

open LockMode ResourceType ClientState LockResult

theorem filter_mutex_find_none (st : LockerState) (r : ResourceId)
    (hmu : ¬ r.resType = RESOURCE_MUTEX) :
    (st.requests.filter (fun p => p.1.resType = RESOURCE_MUTEX)).find?
      (fun p => p.1 = r) = none := by
  apply find?_filter_drop
  intro p hp
  rw [hp]
  exact decide_eq_false hmu

theorem canonical_keys_nodup (st : LockerState) (gm : LockMode) (snapLocks : List OneLock)
    (hnd : (st.requests.map Prod.fst).Nodup)
    (hperm : snapLocks.Perm (savedPairs st)) :
    (((st.requests.filter (fun p => p.1.resType = RESOURCE_MUTEX)) ++
      ((⟨resourceIdGlobal, gm⟩ :: snapLocks : List OneLock)).map toReqPair).map
        Prod.fst).Nodup := by
  rw [List.map_append, List.nodup_append]
  refine ⟨((List.filter_sublist _).map Prod.fst).nodup hnd, ?_, ?_⟩
  · rw [List.map_cons, List.map_cons, List.nodup_cons]
    constructor
    · intro hmem
      obtain ⟨q, hq, hqfst⟩ := List.mem_map.mp hmem
      obtain ⟨p, _, hqp, hpg, _⟩ := snapKeys_of_requests st snapLocks hperm q hq
      rw [hqfst] at hqp
      exact hpg hqp.symm
    · exact snapKeys_nodup st snapLocks hnd hperm
  · intro a ha hb
    obtain ⟨p, hp, hpa⟩ := List.mem_map.mp ha
    have hpm := (List.mem_filter.mp hp).2
    rw [decide_eq_true_eq] at hpm
    simp only [List.map_cons, List.mem_cons] at hb
    rcases hb with hb | hb
    · have hpg : p.1 = resourceIdGlobal := by rw [hpa]; exact hb
      rw [hpg] at hpm
      exact absurd hpm (by decide)
    · obtain ⟨q, hq, hqfst⟩ := List.mem_map.mp hb
      obtain ⟨p', _, hqp, _, hpm'⟩ := snapKeys_of_requests st snapLocks hperm q hq
      rw [hqfst] at hqp
      rw [hpa, hqp] at hpm
      exact hpm' hpm

end MLock

namespace MLock

open LockMode ResourceType ClientState LockResult

/-- C3 (amended): for a locker outside any write unit of work whose
requests are singly-held, with the global lock held once, when
`saveLockStateAndUnlock` returns true it leaves the locker holding no
non-mutex locks, the produced snapshot records exactly the previously
held non-mutex (resource, mode) pairs — the global mode separately, the
others sorted in ascending ResourceId order — and a subsequent
`restoreLockState` on that snapshot reacquires exactly those locks, the
Parallel-Batch-Writer-Mode resource first when present, then the global
lock, then the rest in snapshot (ascending) order, so that the round
trip restores the original held-lock set. -/
theorem C3_save_restore_roundtrip (st : LockerState) (gm : LockMode)
    (hw : st.wuowNestingLevel = 0)
    (hnd : (st.requests.map Prod.fst).Nodup)
    (hg : findRequest st resourceIdGlobal = some ⟨gm, 1⟩)
    (hok : ∀ p ∈ st.requests, ¬ p.1 = resourceIdGlobal → ¬ p.1.resType = RESOURCE_MUTEX →
      validSaveEntry p.1 p.2 = true ∧ p.2.recursiveCount = 1)
    (hglob : ∀ p ∈ st.requests, p.1.resType = RESOURCE_GLOBAL →
      p.1 = resourceIdGlobal ∨ p.1 = resourceIdParallelBatchWriterMode) :
    ∃ snapLocks stF st2 trace,
      saveLockStateAndUnlock st = some (true, ⟨gm, snapLocks⟩, stF) ∧
      stF.requests = st.requests.filter (fun p => p.1.resType = RESOURCE_MUTEX) ∧
      snapLocks.Perm (savedPairs st) ∧
      List.Sorted OneLock.le snapLocks ∧
      restoreLockState stF ⟨gm, snapLocks⟩ = some (st2, trace) ∧
      ((∃ pb rest, snapLocks = pb :: rest ∧
          pb.resourceId = resourceIdParallelBatchWriterMode ∧
          trace = pb :: ⟨resourceIdGlobal, gm⟩ :: rest) ∨
        ((∀ l ∈ snapLocks, ¬ l.resourceId = resourceIdParallelBatchWriterMode) ∧
          trace = ⟨resourceIdGlobal, gm⟩ :: snapLocks)) ∧
      (∀ r, findRequest st2 r = findRequest st r) := by
  obtain ⟨stF, hsave, hwF, htF, hcF, hreqF⟩ := saveLockStateAndUnlock_spec st gm hw hnd hg hok
  set snapLocks := (savedPairs st).insertionSort OneLock.le with hsnapdef
  have hperm : snapLocks.Perm (savedPairs st) := List.perm_insertionSort _ _
  have hsorted : List.Sorted OneLock.le snapLocks := List.sorted_insertionSort _ _
  have hshape := savedPairs_mem_shape st hok hglob
  have hcanon_nodup := canonical_keys_nodup st gm snapLocks hnd hperm
  have hstFnone : ∀ r : ResourceId, ¬ r.resType = RESOURCE_MUTEX →
      stF.requests.find? (fun p => p.1 = r) = none := by
    intro r hmu
    rw [hreqF]
    exact filter_mutex_find_none st r hmu
  have hstFnone' : ∀ r : ResourceId, ¬ r.resType = RESOURCE_MUTEX →
      findRequest stF r = none := by
    intro r hmu
    unfold findRequest
    rw [hstFnone r hmu]
    rfl
  have hfinal : ∀ st2 : LockerState,
      st2.requests.Perm (st.requests.filter (fun p => p.1.resType = RESOURCE_MUTEX) ++
        ((⟨resourceIdGlobal, gm⟩ :: snapLocks : List OneLock)).map toReqPair) →
      ∀ r, findRequest st2 r = findRequest st r := by
    intro st2 hp2 r
    have hperm' := find?_key_perm _ _ hp2.symm hcanon_nodup r
    unfold findRequest
    rw [← hperm']
    exact restored_find_eq st gm snapLocks hnd hg hok hperm r
  have hsnapkeysnodup : ((snapLocks.map toReqPair).map Prod.fst).Nodup :=
    snapKeys_nodup st snapLocks hnd hperm
  by_cases hpb : ∃ l ∈ snapLocks, l.resourceId = resourceIdParallelBatchWriterMode
  · -- PBWM is among the saved locks: it heads the sorted snapshot
    obtain ⟨lp, hlp, hlpk⟩ := hpb
    cases hsl : snapLocks with
    | nil =>
      rw [hsl] at hlp
      exact absurd hlp (List.not_mem_nil _)
    | cons pb rest =>
      have hpbmem : pb ∈ savedPairs st := by
        apply hperm.mem_iff.mp
        rw [hsl]
        exact List.mem_cons_self _ _
      have hkeyhead : pb.resourceId = resourceIdParallelBatchWriterMode := by
        rw [hsl] at hlp
        rcases List.mem_cons.mp hlp with he | he
        · rw [← he]
          exact hlpk
        · rcases (hshape pb hpbmem).1 with h | h | h
          · exact h
          · exfalso
            have hsorted' := hsorted
            rw [hsl] at hsorted'
            have hle := (List.sorted_cons.mp hsorted').1 lp he
            unfold OneLock.le ResourceId.le at hle
            rcases hle with hlt | ⟨heq, _⟩
            · rw [h, hlpk] at hlt
              exact absurd hlt (by decide)
            · rw [h, hlpk] at heq
              exact absurd heq (by decide)
          · exfalso
            have hsorted' := hsorted
            rw [hsl] at hsorted'
            have hle := (List.sorted_cons.mp hsorted').1 lp he
            unfold OneLock.le ResourceId.le at hle
            rcases hle with hlt | ⟨heq, _⟩
            · rw [h, hlpk] at hlt
              exact absurd hlt (by decide)
            · rw [h, hlpk] at heq
              exact absurd heq (by decide)
      have hpbtype : ¬ pb.resourceId.resType = RESOURCE_MUTEX := by
        rw [hkeyhead]
        decide
      -- compute the three reacquisition steps
      have e1 : acquireRequest stF pb.resourceId pb.mode =
          { stF with requests := stF.requests ++ [((pb.resourceId, ⟨pb.mode, 1⟩) : ResourceId × LockRequestRec)] } :=
        acquireRequest_fresh stF pb.resourceId pb.mode (hstFnone' pb.resourceId hpbtype)
      set stA : LockerState :=
        { stF with requests := stF.requests ++ [((pb.resourceId, ⟨pb.mode, 1⟩) : ResourceId × LockRequestRec)] } with hstA
      have e2 : lockGlobalModel stA gm = acquireRequest { stA with
          clientState := if isSharedLockMode gm then kActiveReader else kActiveWriter,
          modeForTicket := gm } resourceIdGlobal gm :=
        lockGlobalModel_eq stA gm htF
      set stB : LockerState := { stA with
        clientState := if isSharedLockMode gm then kActiveReader else kActiveWriter,
        modeForTicket := gm } with hstB
      have hglfresh : findRequest stB resourceIdGlobal = none := by
        unfold findRequest
        show (Option.map Prod.snd ((stF.requests ++
          [((pb.resourceId, ⟨pb.mode, 1⟩) : ResourceId × LockRequestRec)]).find? (fun p => p.1 = resourceIdGlobal))) = none
        rw [find?_append_none _ _ _ (hstFnone resourceIdGlobal (by decide))]
        have : decide ((pb.resourceId, (⟨pb.mode, 1⟩ : LockRequestRec)).1 =
            resourceIdGlobal) = false := by
          rw [decide_eq_false_iff_not]
          show ¬ pb.resourceId = resourceIdGlobal
          rw [hkeyhead]
          decide
        rw [List.find?_cons, this]
        rfl
      have e3 : acquireRequest stB resourceIdGlobal gm =
          { stB with requests := stB.requests ++ [((resourceIdGlobal, ⟨gm, 1⟩) : ResourceId × LockRequestRec)] } :=
        acquireRequest_fresh stB resourceIdGlobal gm hglfresh
      set stC : LockerState :=
        { stB with requests := stB.requests ++ [((resourceIdGlobal, ⟨gm, 1⟩) : ResourceId × LockRequestRec)] } with hstC
      have hrestkeys : pb.resourceId ∉ rest.map OneLock.resourceId ∧
          (rest.map OneLock.resourceId).Nodup := by
        have h := hsnapkeysnodup
        rw [List.map_map] at h
        have hcomp : (Prod.fst ∘ toReqPair) = OneLock.resourceId := by
          funext l
          rfl
        rw [hcomp, hsl, List.map_cons, List.nodup_cons] at h
        exact h
      have hrestshape : ∀ l ∈ rest, ¬ l.resourceId = resourceIdGlobal ∧
          ¬ l.resourceId.resType = RESOURCE_MUTEX := by
        intro l hl
        have hlmem : l ∈ savedPairs st := by
          apply hperm.mem_iff.mp
          rw [hsl]
          exact List.mem_cons_of_mem _ hl
        exact ⟨(hshape l hlmem).2.1, (hshape l hlmem).2.2⟩
      have hfreshrest : ∀ l ∈ rest, findRequest stC l.resourceId = none := by
        intro l hl
        obtain ⟨hlg, hlm⟩ := hrestshape l hl
        have hlpb : ¬ l.resourceId = pb.resourceId := by
          intro e
          exact hrestkeys.1 (e ▸ List.mem_map_of_mem OneLock.resourceId hl)
        unfold findRequest
        show (Option.map Prod.snd (((stF.requests ++ [((pb.resourceId, ⟨pb.mode, 1⟩) : ResourceId × LockRequestRec)]) ++
          [((resourceIdGlobal, ⟨gm, 1⟩) : ResourceId × LockRequestRec)]).find? (fun p => p.1 = l.resourceId))) = none
        rw [find?_append_none, List.find?_cons]
        · have : decide (((resourceIdGlobal, (⟨gm, 1⟩ : LockRequestRec))).1 =
              l.resourceId) = false := by
            rw [decide_eq_false_iff_not]
            exact fun e => hlg e.symm
          rw [this]
          rfl
        · rw [find?_append_none _ _ _ (hstFnone l.resourceId hlm), List.find?_cons]
          have : decide ((pb.resourceId, (⟨pb.mode, 1⟩ : LockRequestRec)).1 =
              l.resourceId) = false := by
            rw [decide_eq_false_iff_not]
            exact fun e => hlpb e.symm
          rw [this]
          rfl
      have e4 : rest.foldl (fun s l => acquireRequest s l.resourceId l.mode) stC =
          { stC with requests := stC.requests ++ rest.map toReqPair } :=
        foldl_acquire_fresh rest stC hfreshrest hrestkeys.2
      have hrestore := restoreLockState_cons_pbwm stF gm pb rest hwF htF hkeyhead
      rw [e1] at hrestore
      rw [e2] at hrestore
      rw [e3] at hrestore
      rw [e4] at hrestore
      refine ⟨snapLocks, stF, _, _, hsave, hreqF, hperm, hsorted, hsl ▸ hrestore,
        Or.inl ⟨pb, rest, hsl, hkeyhead, rfl⟩, ?_⟩
      apply hfinal
      show (((stF.requests ++ [((pb.resourceId, ⟨pb.mode, 1⟩) : ResourceId × LockRequestRec)]) ++
        [((resourceIdGlobal, ⟨gm, 1⟩) : ResourceId × LockRequestRec)]) ++ rest.map toReqPair).Perm _
      rw [hreqF, hsl, List.map_cons, List.map_cons]
      rw [List.append_assoc, List.append_assoc]
      apply List.Perm.append_left
      exact List.Perm.swap (toReqPair ⟨resourceIdGlobal, gm⟩) (toReqPair pb)
        (rest.map toReqPair)
  · -- no PBWM among the saved locks
    have hnopb : ∀ l ∈ snapLocks, ¬ l.resourceId = resourceIdParallelBatchWriterMode := by
      intro l hl hk
      exact hpb ⟨l, hl, hk⟩
    cases hsl : snapLocks with
    | nil =>
      have hrestore := restoreLockState_nil stF gm hwF htF
      have e2 : lockGlobalModel stF gm = acquireRequest { stF with
          clientState := if isSharedLockMode gm then kActiveReader else kActiveWriter,
          modeForTicket := gm } resourceIdGlobal gm :=
        lockGlobalModel_eq stF gm htF
      set stB : LockerState := { stF with
        clientState := if isSharedLockMode gm then kActiveReader else kActiveWriter,
        modeForTicket := gm } with hstB
      have hglfresh : findRequest stB resourceIdGlobal = none := by
        unfold findRequest
        show (Option.map Prod.snd (stF.requests.find?
          (fun p => p.1 = resourceIdGlobal))) = none
        rw [hstFnone resourceIdGlobal (by decide)]
        rfl
      have e3 : acquireRequest stB resourceIdGlobal gm =
          { stB with requests := stB.requests ++ [((resourceIdGlobal, ⟨gm, 1⟩) : ResourceId × LockRequestRec)] } :=
        acquireRequest_fresh stB resourceIdGlobal gm hglfresh
      rw [e2, e3] at hrestore
      refine ⟨snapLocks, stF, _, _, hsave, hreqF, hperm, hsorted, hsl ▸ hrestore,
        Or.inr ⟨hnopb, by rw [hsl]⟩, ?_⟩
      apply hfinal
      show ((stF.requests ++ [((resourceIdGlobal, ⟨gm, 1⟩) : ResourceId × LockRequestRec)])).Perm _
      rw [hreqF, hsl, List.map_cons]
      exact List.Perm.refl _
    | cons l0 rest =>
      have hkey0 : ¬ l0.resourceId = resourceIdParallelBatchWriterMode := by
        apply hnopb
        rw [hsl]
        exact List.mem_cons_self _ _
      have hrestore := restoreLockState_cons_other stF gm l0 rest hwF htF hkey0
      have e2 : lockGlobalModel stF gm = acquireRequest { stF with
          clientState := if isSharedLockMode gm then kActiveReader else kActiveWriter,
          modeForTicket := gm } resourceIdGlobal gm :=
        lockGlobalModel_eq stF gm htF
      set stB : LockerState := { stF with
        clientState := if isSharedLockMode gm then kActiveReader else kActiveWriter,
        modeForTicket := gm } with hstB
      have hglfresh : findRequest stB resourceIdGlobal = none := by
        unfold findRequest
        show (Option.map Prod.snd (stF.requests.find?
          (fun p => p.1 = resourceIdGlobal))) = none
        rw [hstFnone resourceIdGlobal (by decide)]
        rfl
      have e3 : acquireRequest stB resourceIdGlobal gm =
          { stB with requests := stB.requests ++ [((resourceIdGlobal, ⟨gm, 1⟩) : ResourceId × LockRequestRec)] } :=
        acquireRequest_fresh stB resourceIdGlobal gm hglfresh
      set stC : LockerState :=
        { stB with requests := stB.requests ++ [((resourceIdGlobal, ⟨gm, 1⟩) : ResourceId × LockRequestRec)] } with hstC
      have hsnapkeys : ((l0 :: rest).map OneLock.resourceId).Nodup := by
        have h := hsnapkeysnodup
        rw [List.map_map] at h
        have hcomp : (Prod.fst ∘ toReqPair) = OneLock.resourceId := by
          funext l
          rfl
        rw [hcomp, hsl] at h
        exact h
      have hsnapshape : ∀ l ∈ l0 :: rest, ¬ l.resourceId = resourceIdGlobal ∧
          ¬ l.resourceId.resType = RESOURCE_MUTEX := by
        intro l hl
        have hlmem : l ∈ savedPairs st := by
          apply hperm.mem_iff.mp
          rw [hsl]
          exact hl
        exact ⟨(hshape l hlmem).2.1, (hshape l hlmem).2.2⟩
      have hfreshsnap : ∀ l ∈ l0 :: rest, findRequest stC l.resourceId = none := by
        intro l hl
        obtain ⟨hlg, hlm⟩ := hsnapshape l hl
        unfold findRequest
        show (Option.map Prod.snd ((stF.requests ++
          [((resourceIdGlobal, ⟨gm, 1⟩) : ResourceId × LockRequestRec)]).find? (fun p => p.1 = l.resourceId))) = none
        rw [find?_append_none _ _ _ (hstFnone l.resourceId hlm), List.find?_cons]
        have : decide (((resourceIdGlobal, (⟨gm, 1⟩ : LockRequestRec))).1 =
            l.resourceId) = false := by
          rw [decide_eq_false_iff_not]
          exact fun e => hlg e.symm
        rw [this]
        rfl
      have e4 : (l0 :: rest).foldl (fun s l => acquireRequest s l.resourceId l.mode) stC =
          { stC with requests := stC.requests ++ (l0 :: rest).map toReqPair } :=
        foldl_acquire_fresh (l0 :: rest) stC hfreshsnap hsnapkeys
      rw [e2, e3, e4] at hrestore
      refine ⟨snapLocks, stF, _, _, hsave, hreqF, hperm, hsorted, hsl ▸ hrestore,
        Or.inr ⟨hnopb, by rw [hsl]⟩, ?_⟩
      apply hfinal
      show ((stF.requests ++ [((resourceIdGlobal, ⟨gm, 1⟩) : ResourceId × LockRequestRec)]) ++
        snapLocks.map toReqPair).Perm
        (st.requests.filter (fun p => p.1.resType = RESOURCE_MUTEX) ++
          ((⟨resourceIdGlobal, gm⟩ :: snapLocks : List OneLock)).map toReqPair)
      rw [hreqF, List.map_cons, List.append_assoc]
      exact List.Perm.refl _

end MLock

namespace MLock

open LockMode ResourceType ClientState LockResult

/-- C3 counterexample: `saveLockStateAndUnlock` returns true for a
locker holding the global lock and a mutex-typed resource, yet the mutex
lock is still held afterwards (the save loop skips RESOURCE_MUTEX
entries without unlocking them) — refuting "afterwards the locker holds
no locks". -/
theorem C3_counterexample :
    ((saveLockStateAndUnlock
        { requests := [(⟨RESOURCE_MUTEX, 9⟩, ⟨MODE_X, 1⟩),
            (resourceIdGlobal, ⟨MODE_IS, 1⟩)],
          wuowNestingLevel := 0, resourcesToUnlockAtEndOfUnitOfWork := [],
          modeForTicket := MODE_IS, clientState := kActiveReader }).map
      (fun t => t.1) = some true) ∧
    ((saveLockStateAndUnlock
        { requests := [(⟨RESOURCE_MUTEX, 9⟩, ⟨MODE_X, 1⟩),
            (resourceIdGlobal, ⟨MODE_IS, 1⟩)],
          wuowNestingLevel := 0, resourcesToUnlockAtEndOfUnitOfWork := [],
          modeForTicket := MODE_IS, clientState := kActiveReader }).map
      (fun t => t.2.2.requests) =
      some [(⟨RESOURCE_MUTEX, 9⟩, ⟨MODE_X, 1⟩)]) ∧
    ¬ ([(⟨RESOURCE_MUTEX, 9⟩, ⟨MODE_X, 1⟩)] :
        List (ResourceId × LockRequestRec)) = [] := by
  decide

theorem C3_save_restore_roundtrip_witness :
    (C3stW.wuowNestingLevel = 0 ∧
      (C3stW.requests.map Prod.fst).Nodup ∧
      findRequest C3stW resourceIdGlobal = some ⟨MODE_IX, 1⟩ ∧
      (∀ p ∈ C3stW.requests, ¬ p.1 = resourceIdGlobal →
        ¬ p.1.resType = RESOURCE_MUTEX →
        validSaveEntry p.1 p.2 = true ∧ p.2.recursiveCount = 1) ∧
      (∀ p ∈ C3stW.requests, p.1.resType = RESOURCE_GLOBAL →
        p.1 = resourceIdGlobal ∨ p.1 = resourceIdParallelBatchWriterMode)) ∧
    (∃ snapLocks stF st2 trace,
      saveLockStateAndUnlock C3stW = some (true, ⟨MODE_IX, snapLocks⟩, stF) ∧
      stF.requests = C3stW.requests.filter (fun p => p.1.resType = RESOURCE_MUTEX) ∧
      snapLocks.Perm (savedPairs C3stW) ∧
      List.Sorted OneLock.le snapLocks ∧
      restoreLockState stF ⟨MODE_IX, snapLocks⟩ = some (st2, trace) ∧
      ((∃ pb rest, snapLocks = pb :: rest ∧
          pb.resourceId = resourceIdParallelBatchWriterMode ∧
          trace = pb :: ⟨resourceIdGlobal, MODE_IX⟩ :: rest) ∨
        ((∀ l ∈ snapLocks, ¬ l.resourceId = resourceIdParallelBatchWriterMode) ∧
          trace = ⟨resourceIdGlobal, MODE_IX⟩ :: snapLocks)) ∧
      (∀ r, findRequest st2 r = findRequest C3stW r)) :=
  ⟨⟨by decide, by decide, by decide, by decide, by decide⟩,
    C3_save_restore_roundtrip C3stW MODE_IX (by decide) (by decide) (by decide)
      (by decide) (by decide)⟩

end MLock

namespace MLock

open LockMode ResourceType ClientState LockResult

/-- C4: in the first phase of `_lockGlobalBegin`, when the locker does
not yet hold a ticket: modes S and IS consult the reader pool, mode IX
the writer pool, and mode X no pool at all; while waiting for a ticket
the published client state is QueuedReader (shared modes) or
QueuedWriter; after acquiring the ticket it is ActiveReader or
ActiveWriter; and when a finite ticket wait times out the client state
becomes Inactive and LOCK_TIMEOUT is returned without invoking the lock
manager. -/
theorem acquireRequest_clientState (st : LockerState) (r : ResourceId) (mode : LockMode) :
    (acquireRequest st r mode).clientState = st.clientState := by
  unfold acquireRequest
  cases findRequest st r <;> rfl

theorem C4_lockGlobalBegin_tickets (st : LockerState)
    (hticket : st.modeForTicket = MODE_NONE) :
    (∀ tmax tacq mr,
      (lockGlobalBegin st MODE_S tmax tacq mr).poolUsed = some TicketPool.reader ∧
      (lockGlobalBegin st MODE_IS tmax tacq mr).poolUsed = some TicketPool.reader ∧
      (lockGlobalBegin st MODE_IX tmax tacq mr).poolUsed = some TicketPool.writer ∧
      (lockGlobalBegin st MODE_X tmax tacq mr).poolUsed = none)
    ∧ (∀ tmax tacq mr,
      (lockGlobalBegin st MODE_S tmax tacq mr).queuedState = some kQueuedReader ∧
      (lockGlobalBegin st MODE_IS tmax tacq mr).queuedState = some kQueuedReader ∧
      (lockGlobalBegin st MODE_IX tmax tacq mr).queuedState = some kQueuedWriter)
    ∧ (∀ tacq mr, tacq = true →
      (lockGlobalBegin st MODE_S true tacq mr).st.clientState = kActiveReader ∧
      (lockGlobalBegin st MODE_IS true tacq mr).st.clientState = kActiveReader ∧
      (lockGlobalBegin st MODE_IX true tacq mr).st.clientState = kActiveWriter)
    ∧ (∀ mode mr, ticketHolderFor mode ≠ none →
      (lockGlobalBegin st mode false false mr).result = LOCK_TIMEOUT ∧
      (lockGlobalBegin st mode false false mr).st.clientState = kInactive ∧
      (lockGlobalBegin st mode false false mr).invokedLockManager = false) := by
  refine ⟨?_, ?_, ?_, ?_⟩
  · intro tmax tacq mr
    refine ⟨?_, ?_, ?_, ?_⟩ <;>
      · unfold lockGlobalBegin
        rw [if_pos hticket]
        cases tmax <;> cases tacq <;> rfl
  · intro tmax tacq mr
    refine ⟨?_, ?_, ?_⟩ <;>
      · unfold lockGlobalBegin
        rw [if_pos hticket]
        cases tmax <;> cases tacq <;> rfl
  · intro tacq mr htacq
    refine ⟨?_, ?_, ?_⟩ <;>
      · unfold lockGlobalBegin
        rw [if_pos hticket, htacq]
        show (acquireRequest _ resourceIdGlobal _).clientState = _
        rw [acquireRequest_clientState]
        rfl
  · intro mode mr hpool
    unfold lockGlobalBegin
    rw [if_pos hticket]
    cases hm : ticketHolderFor mode with
    | none => exact absurd hm hpool
    | some pool => exact ⟨rfl, rfl, rfl⟩

theorem C4_lockGlobalBegin_tickets_witness :
    C4stW.modeForTicket = MODE_NONE ∧
    ((∀ tmax tacq mr,
      (lockGlobalBegin C4stW MODE_S tmax tacq mr).poolUsed = some TicketPool.reader ∧
      (lockGlobalBegin C4stW MODE_IS tmax tacq mr).poolUsed = some TicketPool.reader ∧
      (lockGlobalBegin C4stW MODE_IX tmax tacq mr).poolUsed = some TicketPool.writer ∧
      (lockGlobalBegin C4stW MODE_X tmax tacq mr).poolUsed = none)
    ∧ (∀ tmax tacq mr,
      (lockGlobalBegin C4stW MODE_S tmax tacq mr).queuedState = some kQueuedReader ∧
      (lockGlobalBegin C4stW MODE_IS tmax tacq mr).queuedState = some kQueuedReader ∧
      (lockGlobalBegin C4stW MODE_IX tmax tacq mr).queuedState = some kQueuedWriter)
    ∧ (∀ tacq mr, tacq = true →
      (lockGlobalBegin C4stW MODE_S true tacq mr).st.clientState = kActiveReader ∧
      (lockGlobalBegin C4stW MODE_IS true tacq mr).st.clientState = kActiveReader ∧
      (lockGlobalBegin C4stW MODE_IX true tacq mr).st.clientState = kActiveWriter)
    ∧ (∀ mode mr, ticketHolderFor mode ≠ none →
      (lockGlobalBegin C4stW mode false false mr).result = LOCK_TIMEOUT ∧
      (lockGlobalBegin C4stW mode false false mr).st.clientState = kInactive ∧
      (lockGlobalBegin C4stW mode false false mr).invokedLockManager = false)) :=
  ⟨by decide, C4_lockGlobalBegin_tickets C4stW (by decide)⟩

end MLock

namespace MCatalog

open ErrCode

/-- C5: dropping an existing replicated collection (oplog enabled, not
master/slave) with a null drop optime first drops the indexes whose
post-rename namespace would be too long, then logs the drop (obtaining
the drop optime from the OpObserver), renames the collection to the
drop-pending namespace derived from that optime, and registers that
namespace with the reaper; when the oplog is disabled for the namespace
or the node runs master/slave, the storage entry is dropped immediately
instead. -/
theorem C5_twophase_drop (env : DropCollEnv) (t : Nat)
    (hex : env.collectionExists = true)
    (hbuilds : env.numIndexBuildsInProgress = 0) :
    (env.isOplogDisabledForNamespace = false → env.isMasterSlave = false →
      env.observerDropOpTime = some t →
      dropCollectionEvenIfSystem env none =
        some (OK, (env.indexNames.filter env.indexTooLongAfterRename).flatMap
            (fun n => [DropEffect.dropIndexImmediately n, DropEffect.onDropIndexOplog n]) ++
          [DropEffect.onDropCollectionOplog, DropEffect.renameToDropPending t,
            DropEffect.registerWithReaper t]))
    ∧ ((env.isOplogDisabledForNamespace = true ∨ env.isMasterSlave = true) →
      dropCollectionEvenIfSystem env none =
        some (OK, [DropEffect.finishDropCollection, DropEffect.onDropCollectionOplog])) := by
  constructor
  · intro h1 h2 h3
    unfold dropCollectionEvenIfSystem
    rw [if_neg (by simp), if_neg (by rw [hex]; simp), if_neg (by rw [hbuilds]; simp),
      if_neg (by rw [h1, h2]; simp)]
    simp only [h3]
  · intro h
    unfold dropCollectionEvenIfSystem
    rw [if_neg (by simp), if_neg (by rw [hex]; simp), if_neg (by rw [hbuilds]; simp),
      if_pos (by rcases h with h | h <;> rw [h] <;> simp)]

theorem C5_twophase_drop_witness :
    (C5envW.collectionExists = true ∧ C5envW.numIndexBuildsInProgress = 0) ∧
    ((C5envW.isOplogDisabledForNamespace = false → C5envW.isMasterSlave = false →
      C5envW.observerDropOpTime = some 42 →
      dropCollectionEvenIfSystem C5envW none =
        some (OK, (C5envW.indexNames.filter C5envW.indexTooLongAfterRename).flatMap
            (fun n => [DropEffect.dropIndexImmediately n, DropEffect.onDropIndexOplog n]) ++
          [DropEffect.onDropCollectionOplog, DropEffect.renameToDropPending 42,
            DropEffect.registerWithReaper 42]))
    ∧ ((C5envW.isOplogDisabledForNamespace = true ∨ C5envW.isMasterSlave = true) →
      dropCollectionEvenIfSystem C5envW none =
        some (OK, [DropEffect.finishDropCollection, DropEffect.onDropCollectionOplog]))) :=
  ⟨⟨rfl, rfl⟩, C5_twophase_drop C5envW 42 rfl rfl⟩

/-- C10 (amended): dropping an absent collection through
`dropCollection` always returns OK with no effects, skipping the
system-collection and profiling validations; `dropCollectionEvenIfSystem`
does the same except when it is invoked with a non-null drop optime
while writes are replicated, in which case it returns BadValue (still
with no effects) before looking the collection up. -/
theorem C10_drop_absent_ok (env : DropCollEnv) (ns : NsProps) (profileLevel : Nat)
    (dropOpTime : Option Nat)
    (habs : env.collectionExists = false) :
    dropCollection env ns profileLevel dropOpTime = some (OK, [])
    ∧ (dropOpTime = none ∨ env.writesAreReplicated = false →
        dropCollectionEvenIfSystem env dropOpTime = some (OK, [])) := by
  constructor
  · unfold dropCollection
    rw [if_pos (by rw [habs]; simp)]
  · intro h
    unfold dropCollectionEvenIfSystem
    rw [if_neg ?_, if_pos (by rw [habs]; simp)]
    rcases h with h | h
    · rw [h]
      simp
    · rw [h]
      simp

/-- C10 counterexample: `dropCollectionEvenIfSystem` called on an absent
collection with a non-null drop optime while writes are replicated
returns BadValue, not OK — the optime validation precedes the
absent-collection early return. -/
theorem C10_counterexample :
    dropCollectionEvenIfSystem
      { writesAreReplicated := true, collectionExists := false,
        numIndexBuildsInProgress := 0, isOplogDisabledForNamespace := false,
        isMasterSlave := false, indexNames := [],
        indexTooLongAfterRename := fun _ => false, observerDropOpTime := none }
      (some 5) = some (BadValue, []) ∧ ¬ (BadValue = OK) := by
  constructor
  · rfl
  · decide

theorem C10_drop_absent_ok_witness :
    C10envW.collectionExists = false ∧
    (dropCollection C10envW ⟨true, true, false⟩ 2 none = some (OK, [])
    ∧ (none = (none : Option Nat) ∨ C10envW.writesAreReplicated = false →
        dropCollectionEvenIfSystem C10envW none = some (OK, []))) :=
  ⟨rfl, C10_drop_absent_ok C10envW ⟨true, true, false⟩ 2 none rfl⟩

end MCatalog

namespace MCatalog

open ErrCode

theorem charsToChooseFrom_length : charsToChooseFrom.length = 62 := by
  decide

theorem replacePercent_snd (rnd : Nat → Nat) :
    ∀ (m : List Char) (k : Nat), (replacePercent rnd k m).2 = k + m.count '%' := by
  intro m
  induction m with
  | nil =>
    intro k
    simp [replacePercent]
  | cons c cs ih =>
    intro k
    unfold replacePercent
    by_cases hc : c = '%'
    · rw [if_pos hc]
      simp only []
      rw [ih (k + 1), hc]
      rw [List.count_cons]
      simp
      omega
    · rw [if_neg hc]
      simp only []
      rw [ih k]
      rw [List.count_cons]
      have : (c == '%') = false := beq_eq_false_iff_ne.mpr hc
      rw [this]
      simp

theorem replacePercent_length (rnd : Nat → Nat) :
    ∀ (m : List Char) (k : Nat), (replacePercent rnd k m).1.length = m.length := by
  intro m
  induction m with
  | nil =>
    intro k
    rfl
  | cons c cs ih =>
    intro k
    unfold replacePercent
    by_cases hc : c = '%'
    · rw [if_pos hc]
      simp only [List.length_cons]
      rw [ih (k + 1)]
    · rw [if_neg hc]
      simp only [List.length_cons]
      rw [ih k]

theorem replacePercent_getD (rnd : Nat → Nat) :
    ∀ (m : List Char) (k j : Nat), j < m.length →
      (m.getD j ' ' = '%' → (replacePercent rnd k m).1.getD j ' ' ∈ charsToChooseFrom) ∧
      (¬ m.getD j ' ' = '%' → (replacePercent rnd k m).1.getD j ' ' = m.getD j ' ') := by
  intro m
  induction m with
  | nil =>
    intro k j hj
    exact absurd hj (by simp)
  | cons c cs ih =>
    intro k j hj
    unfold replacePercent
    cases j with
    | zero =>
      by_cases hc : c = '%'
      · rw [if_pos hc]
        constructor
        · intro _
          simp only [List.getD_cons_zero]
          have hlt : rnd k % charsToChooseFrom.length < charsToChooseFrom.length :=
            Nat.mod_lt _ (by decide)
          rw [List.getD_eq_getElem charsToChooseFrom 'a' hlt]
          exact charsToChooseFrom.getElem_mem hlt
        · intro hnc
          exact absurd (by simp only [List.getD_cons_zero]; exact hc) hnc
      · rw [if_neg hc]
        constructor
        · intro hcc
          exact absurd (by simp only [List.getD_cons_zero] at hcc; exact hcc) hc
        · intro _
          simp only [List.getD_cons_zero]
    | succ j' =>
      have hj' : j' < cs.length := by
        simp only [List.length_cons] at hj
        omega
      by_cases hc : c = '%'
      · rw [if_pos hc]
        constructor
        · intro hcc
          simp only [List.getD_cons_succ] at hcc ⊢
          exact (ih (k + 1) j' hj').1 hcc
        · intro hcc
          simp only [List.getD_cons_succ] at hcc ⊢
          exact (ih (k + 1) j' hj').2 hcc
      · rw [if_neg hc]
        constructor
        · intro hcc
          simp only [List.getD_cons_succ] at hcc ⊢
          exact (ih k j' hj').1 hcc
        · intro hcc
          simp only [List.getD_cons_succ] at hcc ⊢
          exact (ih k j' hj').2 hcc

end MCatalog

namespace MCatalog

open ErrCode

theorem genLoop_spec (ex : String → Bool) (db : String) (model : List Char)
    (rnd : Nat → Nat) :
    ∀ (n k : Nat),
      genLoop ex db model rnd n k =
        ((((List.range n).map (fun i => k + i * model.count '%')).find?
          (fun kk => ¬ ex (db ++ "." ++ String.mk (replacePercent rnd kk model).1))).map
          (fun kk => db ++ "." ++ String.mk (replacePercent rnd kk model).1)) := by
  intro n
  induction n with
  | zero =>
    intro k
    rfl
  | succ n ih =>
    intro k
    have hstep : genLoop ex db model rnd (n + 1) k =
        (if ex (db ++ "." ++ String.mk (replacePercent rnd k model).1) then
          genLoop ex db model rnd n (replacePercent rnd k model).2
        else some (db ++ "." ++ String.mk (replacePercent rnd k model).1)) := rfl
    rw [hstep]
    rw [List.range_succ_eq_map, List.map_cons, List.find?_cons]
    have hcomp : ((fun i => k + i * model.count '%') ∘ Nat.succ) =
        (fun i => (k + model.count '%') + i * model.count '%') := by
      funext i
      show k + Nat.succ i * model.count '%' = _
      rw [Nat.succ_mul]
      omega
    simp only [Nat.zero_mul, Nat.add_zero]
    rw [List.map_map, hcomp]
    cases hx : ex (db ++ "." ++ String.mk (replacePercent rnd k model).1) with
    | true =>
      rw [if_pos rfl]
      have hpred : (decide (¬ (true : Bool) = true)) = false := by decide
      simp only [hpred]
      rw [replacePercent_snd rnd model k]
      exact ih (k + model.count '%')
    | false =>
      rw [if_neg Bool.false_ne_true]
      have hpred : (decide (¬ (false : Bool) = true)) = true := by decide
      simp only [hpred]
      rfl

end MCatalog

namespace MCatalog

open ErrCode

/-- C7 (corrected): for every model whose length-truncated form contains
at least one '%', `makeUniqueCollectionNamespace` substitutes each '%'
of the truncated model with a character drawn from the 62-character
alphanumeric alphabet (non-'%' characters pass through unchanged),
makes at most numPercentSign * 62 * 100 generation attempts, returns
the first generated namespace for which no collection exists, and
fails with NamespaceExists only after all attempts are exhausted.
(The original claim quantified over every model string; a model with no
'%' fails with FailedToParse instead, see the counterexample.) -/
theorem C7_makeUnique_namespace (maxLen : Nat) (db model : String)
    (rnd : Nat → Nat) (ex : String → Bool)
    (hp : ¬ ((model.toList.take (maxLen - (db.length + 1))).count '%' = 0)) :
    charsToChooseFrom.length = 62 ∧
    (∀ k j, j < (model.toList.take (maxLen - (db.length + 1))).length →
      ((model.toList.take (maxLen - (db.length + 1))).getD j ' ' = '%' →
        (replacePercent rnd k (model.toList.take (maxLen - (db.length + 1)))).1.getD j ' '
          ∈ charsToChooseFrom) ∧
      (¬ (model.toList.take (maxLen - (db.length + 1))).getD j ' ' = '%' →
        (replacePercent rnd k (model.toList.take (maxLen - (db.length + 1)))).1.getD j ' '
          = (model.toList.take (maxLen - (db.length + 1))).getD j ' ')) ∧
    makeUniqueCollectionNamespace maxLen db model rnd ex =
      (match ((List.range ((model.toList.take (maxLen - (db.length + 1))).count '%' *
            62 * 100)).map
          (fun i => i * (model.toList.take (maxLen - (db.length + 1))).count '%')).find?
          (fun kk => ¬ ex (db ++ "." ++
            String.mk (replacePercent rnd kk
              (model.toList.take (maxLen - (db.length + 1)))).1)) with
      | some kk => Except.ok (db ++ "." ++
          String.mk (replacePercent rnd kk
            (model.toList.take (maxLen - (db.length + 1)))).1)
      | none => Except.error ErrCode.NamespaceExists) := by
  refine ⟨by decide, ?_, ?_⟩
  · intro k j hj
    exact replacePercent_getD rnd (model.toList.take (maxLen - (db.length + 1))) k j hj
  · show (if ((model.toList.take (maxLen - (db.length + 1))).count '%') = 0 then
          Except.error FailedToParse
        else
          match genLoop ex db (model.toList.take (maxLen - (db.length + 1))) rnd
            ((model.toList.take (maxLen - (db.length + 1))).count '%' *
              charsToChooseFrom.length * 100) 0 with
          | some nss => Except.ok nss
          | none => Except.error NamespaceExists) = _
    rw [if_neg hp]
    rw [genLoop_spec ex db (model.toList.take (maxLen - (db.length + 1))) rnd]
    rw [charsToChooseFrom_length]
    simp only [Nat.zero_add]
    cases hfind : ((List.range ((model.toList.take (maxLen - (db.length + 1))).count '%' *
          62 * 100)).map
        (fun i => i * (model.toList.take (maxLen - (db.length + 1))).count '%')).find?
        (fun kk => ¬ ex (db ++ "." ++
          String.mk (replacePercent rnd kk
            (model.toList.take (maxLen - (db.length + 1)))).1)) with
    | none => rfl
    | some kk => rfl

end MCatalog

namespace MCatalog

/-- C7 counterexample to the original claim: the claim asserts that for
EVERY model string the function retries up to numPercentSign * 62 * 100
attempts and then fails with NamespaceExists; but for a model with no
'%' at all (here "a"), the code fails up front with FailedToParse
(database_impl.cpp lines 1040-1045), not NamespaceExists. -/
theorem C7_counterexample :
    makeUniqueCollectionNamespace 120 "db" "a" (fun _ => 0) (fun _ => false) =
      Except.error ErrCode.FailedToParse ∧
    ¬ (ErrCode.FailedToParse = ErrCode.NamespaceExists) := by
  exact ⟨rfl, by decide⟩

set_option maxRecDepth 10000 in
/-- Witness for C7: a concrete run with model "tmp%", no existing
collections and the constant-zero pseudo-random stream produces
"db.tmp0". -/
theorem C7_makeUnique_namespace_witness :
    ¬ (("tmp%".toList.take (120 - ("db".length + 1))).count '%' = 0) ∧
    makeUniqueCollectionNamespace 120 "db" "tmp%" (fun _ => 0) (fun _ => false) =
      Except.ok "db.tmp0" :=
  ⟨by decide,
   ((C7_makeUnique_namespace 120 "db" "tmp%" (fun _ => 0) (fun _ => false)
      (by decide)).2.2).trans (by rfl)⟩

end MCatalog

namespace MPlan

open StageType PickDispatch

mutual

theorem getStageByType_eq_find : ∀ (t : PlanStage) (ty : StageType),
    getStageByType t ty = (preorder t).find? (fun s => s.stageType = ty)
  | .mk t cs, ty => by
    show (if t = ty then some (.mk t cs) else getStageByTypeList cs ty) =
      List.find? (fun s => decide (s.stageType = ty)) (PlanStage.mk t cs :: preorderList cs)
    rw [List.find?_cons]
    by_cases h : t = ty
    · rw [if_pos h]
      have hd : (decide ((PlanStage.mk t cs).stageType = ty)) = true := decide_eq_true h
      simp only [hd]
    · rw [if_neg h]
      have hd : (decide ((PlanStage.mk t cs).stageType = ty)) = false := decide_eq_false h
      simp only [hd]
      exact getStageByTypeList_eq_find cs ty

theorem getStageByTypeList_eq_find : ∀ (l : List PlanStage) (ty : StageType),
    getStageByTypeList l ty = (preorderList l).find? (fun s => s.stageType = ty)
  | [], _ => rfl
  | c :: cs, ty => by
    show (match getStageByType c ty with
        | some r => some r
        | none => getStageByTypeList cs ty) =
      List.find? (fun s => decide (s.stageType = ty)) (preorder c ++ preorderList cs)
    rw [getStageByType_eq_find c ty]
    cases hf : List.find? (fun s => decide (s.stageType = ty)) (preorder c) with
    | some r =>
      simp only [hf]
      exact (MLock.find?_append_some _ _ _ r hf).symm
    | none =>
      simp only [hf]
      rw [MLock.find?_append_none _ _ _ hf]
      exact getStageByTypeList_eq_find cs ty

end

end MPlan

namespace MPlan

/-- C6: `pickBestPlan` dispatches in fixed priority order: to the first
Subplan stage in root-first, left-to-right (preorder) visiting order if
one exists; otherwise to the first MultiPlan stage; otherwise to the
first CachedPlan stage; and when none of the three kinds occurs in the
tree it returns OK without dispatching any selection. -/
theorem C6_pickBestPlan_priority (root : PlanStage) :
    pickBestPlan root =
      (match (preorder root).find? (fun s => s.stageType = StageType.STAGE_SUBPLAN) with
      | some s => PickDispatch.subplan s
      | none =>
        match (preorder root).find? (fun s => s.stageType = StageType.STAGE_MULTI_PLAN) with
        | some s => PickDispatch.multiPlan s
        | none =>
          match (preorder root).find? (fun s => s.stageType = StageType.STAGE_CACHED_PLAN) with
          | some s => PickDispatch.cachedPlan s
          | none => PickDispatch.okNoDispatch) := by
  show (match getStageByType root StageType.STAGE_SUBPLAN with
    | some s => PickDispatch.subplan s
    | none =>
      match getStageByType root StageType.STAGE_MULTI_PLAN with
      | some s => PickDispatch.multiPlan s
      | none =>
        match getStageByType root StageType.STAGE_CACHED_PLAN with
        | some s => PickDispatch.cachedPlan s
        | none => PickDispatch.okNoDispatch) = _
  rw [getStageByType_eq_find root StageType.STAGE_SUBPLAN,
    getStageByType_eq_find root StageType.STAGE_MULTI_PLAN,
    getStageByType_eq_find root StageType.STAGE_CACHED_PLAN]

end MPlan

namespace MIndex

open Bson Bson.BVal

/-- C8 counterexample to the original claim: `makeIndexNamespace` joins
the parent namespace and the index name with ".$" (index_descriptor.h
line 272: `ns + ".$" + name`), not with a bare "$": for parent "a.b"
and name "c" the index namespace is "a.b.$c", which differs from
"a.b" + "$" + "c" = "a.b$c". -/
theorem C8_counterexample :
    (mkIndexDescriptor C8info).indexNamespace = "a.b.$c" ∧
    ¬ ((mkIndexDescriptor C8info).indexNamespace = "a.b" ++ "$" ++ "c") := by
  exact ⟨rfl, by decide⟩

/-- C8 (corrected): for every IndexDescriptor built from an info object,
`indexNamespace` equals the parent collection namespace concatenated
with ".$" and the index name (the original claim said the separator was
"$"); and every descriptor whose key pattern is the id-index pattern
(_id : 1) reports unique() as true. -/
theorem C8_indexNamespace_unique (infoObj : List (String × BVal)) :
    (mkIndexDescriptor infoObj).indexNamespace =
      (mkIndexDescriptor infoObj).parentNS ++ ".$" ++
        (mkIndexDescriptor infoObj).indexName ∧
    ((mkIndexDescriptor infoObj).keyPattern = [("_id", bInt 1)] →
      (mkIndexDescriptor infoObj).unique = true) := by
  constructor
  · rfl
  · intro h
    have hk : (mkIndexDescriptor infoObj).keyPattern =
        getObjectField infoObj "key" := rfl
    rw [hk] at h
    show (isIdIndexPattern (getObjectField infoObj "key") ||
      trueValue (getField infoObj "unique")) = true
    rw [h]
    rfl

/-- Witness for C8: the concrete descriptor on "a.b" named "c" with the
id key pattern has index namespace "a.b" ++ ".$" ++ "c" and is unique. -/
theorem C8_indexNamespace_unique_witness :
    (mkIndexDescriptor C8info).indexNamespace = "a.b" ++ ".$" ++ "c" ∧
    (mkIndexDescriptor C8info).unique = true :=
  ⟨((C8_indexNamespace_unique C8info).1).trans (by rfl),
   (C8_indexNamespace_unique C8info).2 (by rfl)⟩

end MIndex

namespace MMeta

open Bson Bson.BVal ErrCode

/-- C9: for every file system, dbpath, non-empty storage engine name and
options document, `StorageEngineMetadata::write` succeeds (OK) and a
subsequent `read` on the same dbpath returns exactly that engine name
and options (write-to-temp-then-rename round trip); and `write` with an
empty engine name fails with BadValue and leaves the file system — in
particular the metadata file — untouched. -/
theorem C9_write_read_roundtrip (fs : FileSys) (dbpath engine : String)
    (options : List (String × BVal)) :
    (¬ engine = "" →
      (write fs dbpath engine options).1 = OK ∧
      read (write fs dbpath engine options).2 dbpath = .ok (engine, options)) ∧
    (engine = "" →
      write fs dbpath engine options = (BadValue, fs)) := by
  constructor
  · intro h
    have hw : write fs dbpath engine options =
        (OK, setFile
          (removeFile
            (setFile fs (metadataTempPath dbpath)
              (bDoc [("storage",
                bDoc [("engine", bStr engine), ("options", bDoc options)])]))
            (metadataTempPath dbpath))
          (metadataPath dbpath)
          (bDoc [("storage",
            bDoc [("engine", bStr engine), ("options", bDoc options)])])) := by
      unfold write
      rw [if_neg h]
    constructor
    · rw [hw]
    · rw [hw]
      show read (setFile
        (removeFile
          (setFile fs (metadataTempPath dbpath)
            (bDoc [("storage",
              bDoc [("engine", bStr engine), ("options", bDoc options)])]))
          (metadataTempPath dbpath))
        (metadataPath dbpath)
        (bDoc [("storage",
          bDoc [("engine", bStr engine), ("options", bDoc options)])])) dbpath =
        Except.ok (engine, options)
      have hget : (setFile
          (removeFile
            (setFile fs (metadataTempPath dbpath)
              (bDoc [("storage",
                bDoc [("engine", bStr engine), ("options", bDoc options)])]))
            (metadataTempPath dbpath))
          (metadataPath dbpath)
          (bDoc [("storage",
            bDoc [("engine", bStr engine), ("options", bDoc options)])]))
          (metadataPath dbpath) =
          some (bDoc [("storage",
            bDoc [("engine", bStr engine), ("options", bDoc options)])]) := by
        show (if metadataPath dbpath = metadataPath dbpath then _ else _) = _
        rw [if_pos rfl]
      unfold read
      rw [hget]
      show (if engine = "" then Except.error FailedToParse
        else
          match extractAtPath (bDoc [("storage",
              bDoc [("engine", bStr engine), ("options", bDoc options)])])
            ["storage", "options"] with
          | none => Except.ok (engine, [])
          | some (bDoc l) => Except.ok (engine, l)
          | some _ => Except.error FailedToParse) = Except.ok (engine, options)
      rw [if_neg h]
      rfl
  · intro h
    rw [h]
    rfl

/-- Witness for C9: a concrete round trip on the empty file system with
engine "wiredTiger" and one option. -/
theorem C9_write_read_roundtrip_witness :
    (¬ "wiredTiger" = "") ∧
    read (write (fun _ => none) "d" "wiredTiger" [("cacheSizeGB", bInt 1)]).2 "d" =
      Except.ok ("wiredTiger", [("cacheSizeGB", bInt 1)]) :=
  ⟨by decide,
   ((C9_write_read_roundtrip (fun _ => none) "d" "wiredTiger"
      [("cacheSizeGB", bInt 1)]).1 (by decide)).2⟩

end MMeta
